import Mathlib

/-!
Verification of the Y86-64 simulator core (`src/lib/y86/cpu.ts`,
`src/lib/y86/types.ts`).

The development shallowly embeds, in order:
* the data model (status codes, register file, condition codes, memory);
* the numeric helpers (`normalize64`, `toInt64`, `add64`, `detectAddOverflow`,
  the quad readers/writers and their bounds checks);
* the instruction interpreter `executeInstruction` with one helper per
  `switch` case;
* the object-code loader `parseYoProgram` (comment stripping, the record
  regular expression `^0x([0-9a-fA-F]+):\s*([0-9a-fA-F]+)`, byte-pair
  loading, entry-point computation);
* the run driver `simulateYoProgram` (trace building, step bound, forced
  halt);
* the session controller (`Y86CPU`: `reset`, `loadProgram`, `step`,
  breakpoints, snapshot bookkeeping).

Modelling conventions, each noted where used: JavaScript `bigint` becomes
`Int`; `number` used as an address becomes `Nat`; `Uint8Array` becomes
`Nat → Nat` (every write stores a value below 256); thrown
`Y86RuntimeError`s become `Except` errors carrying the partially mutated
state, since the driver catches them and keeps that state; serialization
of register values through decimal strings and of flags through 0/1
numbers is kept as the identity on `Int`/`Nat` values because
`BigInt(x.toString()) = x` is exact; wall-clock ids and timestamps
(`Date.now()`) and log message strings are dropped, keeping only each log
entry's type.
-/

/-- Status codes (`StatusCode` in `types.ts`). The numeric codes 1–4 and the
`STATUS_MAP` back-conversion are a bijection, so the codes are kept
abstract. -/
inductive StatusCode where
  | AOK
  | HLT
  | ADR
  | INS
deriving DecidableEq

/-- The fifteen architectural registers (`RegisterFile` keys in `types.ts`). -/
inductive Reg where
  | rax
  | rcx
  | rdx
  | rbx
  | rsp
  | rbp
  | rsi
  | rdi
  | r8
  | r9
  | r10
  | r11
  | r12
  | r13
  | r14
deriving DecidableEq, Fintype

/-- `REGISTER_NAMES` / `getRegisterName` from `cpu.ts`: 4-bit register ids
0–14 name a register, everything else (including `0xF` = none) is invalid. -/
def getRegisterName (id : Nat) : Option Reg :=
  match id with
  | 0 => some .rax
  | 1 => some .rcx
  | 2 => some .rdx
  | 3 => some .rbx
  | 4 => some .rsp
  | 5 => some .rbp
  | 6 => some .rsi
  | 7 => some .rdi
  | 8 => some .r8
  | 9 => some .r9
  | 10 => some .r10
  | 11 => some .r11
  | 12 => some .r12
  | 13 => some .r13
  | 14 => some .r14
  | _ => none

/-- A register file maps each register name to its `bigint` value. -/
def RegisterFile : Type := Reg → Int

/-- Pointwise update of the register file (`registers[name] = value`). -/
def updReg (f : RegisterFile) (r : Reg) (v : Int) : RegisterFile :=
  fun x => if x = r then v else f x

/-- Condition-code flags (`ConditionCodeFlags` in `types.ts`). -/
structure Flags where
  ZF : Bool
  SF : Bool
  OF : Bool
deriving DecidableEq

/-- Byte-addressed memory; the `Uint8Array` of size `MEMORY_SIZE`. Every
value the simulator stores is below 256. -/
def Mem : Type := Nat → Nat

/-- Pointwise memory update (`memory[target] = value`). -/
def updMem (m : Mem) (a v : Nat) : Mem :=
  fun x => if x = a then v else m x

/-- The all-zero memory a fresh `Uint8Array(MEMORY_SIZE)` holds. -/
def zeroMem : Mem := fun _ => 0

/-- `MEMORY_SIZE = 0x8000` from `cpu.ts`. -/
def MEMORY_SIZE : Nat := 32768

/-- `MAX_SIMULATION_STEPS` from `cpu.ts`. -/
def MAX_SIMULATION_STEPS : Nat := 10000

/-- `BigInt.asIntN(64, v)`: the value of the low 64 bits of `v` read as a
two's-complement signed integer. -/
def asIntN64 (v : Int) : Int :=
  let m := v % ((2 : Int) ^ 64)
  if m < 2 ^ 63 then m else m - 2 ^ 64

/-- `BigInt.asUintN(64, v)` as a natural number: the low 64 bits of `v`. -/
def asUintN64 (v : Int) : Nat :=
  (v % ((2 : Int) ^ 64)).toNat

/-- `normalize64` from `cpu.ts`. -/
def normalize64 (value : Int) : Int := asIntN64 value

/-- `toInt64` from `cpu.ts`. -/
def toInt64 (value : Int) : Int := asIntN64 value

/-- `add64` from `cpu.ts`. -/
def add64 (a b : Int) : Int := asIntN64 (a + b)

/-- `detectAddOverflow` from `cpu.ts`: the operands share a sign and the
result's sign differs from theirs. -/
def detectAddOverflow (a b result : Int) : Bool :=
  (decide (a < 0) == decide (b < 0)) && (decide (result < 0) != decide (a < 0))

/-- `evaluateCondition` from `cpu.ts`; any code outside 0–6 hits the
`default` branch and is `false`. -/
def evaluateCondition (code : Nat) (flags : Flags) : Bool :=
  if code = 0 then true
  else if code = 1 then (flags.SF != flags.OF) || flags.ZF
  else if code = 2 then flags.SF != flags.OF
  else if code = 3 then flags.ZF
  else if code = 4 then !flags.ZF
  else if code = 5 then flags.SF == flags.OF
  else if code = 6 then !flags.ZF && (flags.SF == flags.OF)
  else false

/-- `readByte` from `cpu.ts`: bounds-checked byte fetch (`address` is a
`Nat`, so only the upper bound can fail). -/
def readByte (memory : Mem) (address : Nat) : Except StatusCode Nat :=
  if MEMORY_SIZE ≤ address then .error .ADR else .ok (memory address)

/-- The 8-iteration accumulation loop shared by `readSignedQuad` and
`readUnsignedQuad`: `value |= memory[address+i] << (i*8)`. -/
def readQuadVal (memory : Mem) (address : Nat) : Nat :=
  (List.range 8).foldl (fun value i => value ||| (memory (address + i) <<< (i * 8))) 0

/-- `readSignedQuad` from `cpu.ts`: bounds check, little-endian
accumulation, then `BigInt.asIntN(64, ·)`. -/
def readSignedQuad (memory : Mem) (address : Nat) : Except StatusCode Int :=
  if MEMORY_SIZE ≤ address + 7 then .error .ADR
  else .ok (asIntN64 (Int.ofNat (readQuadVal memory address)))

/-- `readUnsignedQuad` from `cpu.ts`: bounds check, accumulation, then
`BigInt.asUintN(64, ·)`. -/
def readUnsignedQuad (memory : Mem) (address : Nat) : Except StatusCode Nat :=
  if MEMORY_SIZE ≤ address + 7 then .error .ADR
  else .ok (readQuadVal memory address % 2 ^ 64)

/-- `Set.add` on the dirty-word set, modelled as an insertion-ordered
duplicate-free list. -/
def insertDirty (dirty : List Nat) (addr : Nat) : List Nat :=
  if addr ∈ dirty then dirty else dirty ++ [addr]

/-- `markMemoryRangeDirty` from `cpu.ts`: add every 8-byte-aligned word
base from `start` through `start+length-1`, stopping at `MEMORY_SIZE`. -/
def markMemoryRangeDirty (dirty : List Nat) (start length : Nat) : List Nat :=
  if length = 0 then dirty
  else
    let firstBase := start / 8 * 8
    let lastBase := (start + length - 1) / 8 * 8
    ((List.range ((lastBase - firstBase) / 8 + 1)).map (fun j => firstBase + j * 8)).foldl
      (fun d addr => if addr < MEMORY_SIZE then insertDirty d addr else d) dirty

/-- `writeQuad` from `cpu.ts`: bounds check, then the loop writes byte `i`
at `address+i` with value `(u >>> (8*i)) & 0xff` where `u` is the low 64
bits of `rawValue`, and marks the touched words dirty. -/
def writeQuad (memory : Mem) (address : Nat) (rawValue : Int) (dirtyWords : List Nat) :
    Except StatusCode (Mem × List Nat) :=
  if MEMORY_SIZE ≤ address + 7 then .error .ADR
  else
    let u := asUintN64 rawValue
    let memory' : Mem := fun x =>
      if address ≤ x ∧ x < address + 8 then (u >>> ((x - address) * 8)) &&& 255 else memory x
    .ok (memory', markMemoryRangeDirty dirtyWords address 8)

/-- `bigIntToNumber` from `cpu.ts`: a `bigint` is accepted as a memory
address iff it lies in `[0, MEMORY_SIZE)`; every other value (including
ones whose `Number` conversion would round) is outside that window and
raises `ADR`. -/
def bigIntToNumber (value : Int) : Except StatusCode Nat :=
  if 0 ≤ value ∧ value < (MEMORY_SIZE : Int) then .ok value.toNat else .error .ADR

/-- `toAddressNumber` from `cpu.ts`, applied to the (unsigned) quad read
for jump/call/return targets. -/
def toAddressNumber (value : Nat) : Except StatusCode Nat :=
  if value < MEMORY_SIZE then .ok value else .error .ADR

/-- State threaded through one interpreter step (`SimulationState` in
`cpu.ts`, without the redundant nested names). -/
structure SimulationState where
  pc : Nat
  stat : StatusCode
  registers : RegisterFile
  conditionCodes : Flags
  memory : Mem

/-- Result of one interpreter call: either the mutated state (plus dirty
words), or — for a thrown `Y86RuntimeError` — the state as mutated up to
the throw point together with the error's status code. -/
def ExecResult : Type :=
  Except (SimulationState × List Nat × StatusCode) (SimulationState × List Nat)

/-- The `RRMOVQ` (and conditional-move) case of `executeInstruction`. -/
def execRRMOVQ (state : SimulationState) (dirtyWords : List Nat) (ifun : Nat) : ExecResult :=
  let pc := state.pc
  match readByte state.memory (pc + 1) with
  | .error c => .error (state, dirtyWords, c)
  | .ok regByte =>
    match getRegisterName ((regByte >>> 4) &&& 15), getRegisterName (regByte &&& 15) with
    | some src, some dst =>
      let registers :=
        if ifun = 0 ∨ evaluateCondition ifun state.conditionCodes then
          updReg state.registers dst (state.registers src)
        else state.registers
      .ok ({ state with registers := registers, pc := pc + 2 }, dirtyWords)
    | _, _ => .error (state, dirtyWords, .INS)

/-- The `IRMOVQ` case of `executeInstruction`. -/
def execIRMOVQ (state : SimulationState) (dirtyWords : List Nat) : ExecResult :=
  let pc := state.pc
  match readByte state.memory (pc + 1) with
  | .error c => .error (state, dirtyWords, c)
  | .ok regByte =>
    match getRegisterName (regByte &&& 15) with
    | none => .error (state, dirtyWords, .INS)
    | some dst =>
      match readSignedQuad state.memory (pc + 2) with
      | .error c => .error (state, dirtyWords, c)
      | .ok immediate =>
        let registers' := updReg state.registers dst (normalize64 immediate)
        .ok ({ state with registers := registers', pc := pc + 10 }, dirtyWords)

/-- The `RMMOVQ` case of `executeInstruction`. -/
def execRMMOVQ (state : SimulationState) (dirtyWords : List Nat) : ExecResult :=
  let pc := state.pc
  match readByte state.memory (pc + 1) with
  | .error c => .error (state, dirtyWords, c)
  | .ok regByte =>
    match getRegisterName ((regByte >>> 4) &&& 15), getRegisterName (regByte &&& 15) with
    | some src, some base =>
      match readSignedQuad state.memory (pc + 2) with
      | .error c => .error (state, dirtyWords, c)
      | .ok displacement =>
        match bigIntToNumber (add64 (state.registers base) displacement) with
        | .error c => .error (state, dirtyWords, c)
        | .ok address =>
          match writeQuad state.memory address (state.registers src) dirtyWords with
          | .error c => .error (state, dirtyWords, c)
          | .ok (memory', dirty') =>
            .ok ({ state with memory := memory', pc := pc + 10 }, dirty')
    | _, _ => .error (state, dirtyWords, .INS)

/-- The `MRMOVQ` case of `executeInstruction`. -/
def execMRMOVQ (state : SimulationState) (dirtyWords : List Nat) : ExecResult :=
  let pc := state.pc
  match readByte state.memory (pc + 1) with
  | .error c => .error (state, dirtyWords, c)
  | .ok regByte =>
    match getRegisterName ((regByte >>> 4) &&& 15), getRegisterName (regByte &&& 15) with
    | some dst, some base =>
      match readSignedQuad state.memory (pc + 2) with
      | .error c => .error (state, dirtyWords, c)
      | .ok displacement =>
        match bigIntToNumber (add64 (state.registers base) displacement) with
        | .error c => .error (state, dirtyWords, c)
        | .ok address =>
          match readSignedQuad state.memory address with
          | .error c => .error (state, dirtyWords, c)
          | .ok value =>
            let registers' := updReg state.registers dst value
            .ok ({ state with registers := registers', pc := pc + 10 }, dirtyWords)
    | _, _ => .error (state, dirtyWords, .INS)

/-- The shared tail of the `OPQ` case: store the result, update the three
flags, advance the program counter by 2. -/
def opqFinish (state : SimulationState) (dst : Reg) (result : Int) (overflow : Bool) :
    SimulationState :=
  { state with
      registers := updReg state.registers dst result,
      conditionCodes :=
        { ZF := decide (result = 0), SF := decide (result < 0), OF := overflow },
      pc := state.pc + 2 }

/-- The `OPQ` case of `executeInstruction`. `BigInt` `&`/`^` act bitwise on
two's-complement values and `normalize64` keeps only the low 64 bits, so
`normalize64(valB & valA)` is embedded as the `Nat` bitwise operation on
each operand's low 64 bits, re-signed. -/
def execOPQ (state : SimulationState) (dirtyWords : List Nat) (ifun : Nat) : ExecResult :=
  let pc := state.pc
  match readByte state.memory (pc + 1) with
  | .error c => .error (state, dirtyWords, c)
  | .ok regByte =>
    match getRegisterName ((regByte >>> 4) &&& 15), getRegisterName (regByte &&& 15) with
    | some src, some dst =>
      let valA := state.registers src
      let valB := state.registers dst
      if ifun = 0 then
        let a := toInt64 valA
        let b := toInt64 valB
        let result := normalize64 (a + b)
        .ok (opqFinish state dst result (detectAddOverflow a b result), dirtyWords)
      else if ifun = 1 then
        let a := toInt64 valA
        let b := toInt64 valB
        let negA := normalize64 (-a)
        let result := normalize64 (b + negA)
        .ok (opqFinish state dst result (detectAddOverflow b negA result), dirtyWords)
      else if ifun = 2 then
        let result := asIntN64 (Int.ofNat (asUintN64 valB &&& asUintN64 valA))
        .ok (opqFinish state dst result false, dirtyWords)
      else if ifun = 3 then
        let result := asIntN64 (Int.ofNat (asUintN64 valB ^^^ asUintN64 valA))
        .ok (opqFinish state dst result false, dirtyWords)
      else .error (state, dirtyWords, .INS)
    | _, _ => .error (state, dirtyWords, .INS)

/-- The `JXX` case of `executeInstruction`; the target is bounds-checked
before the condition is consulted. -/
def execJXX (state : SimulationState) (dirtyWords : List Nat) (ifun : Nat) : ExecResult :=
  let pc := state.pc
  match readUnsignedQuad state.memory (pc + 1) with
  | .error c => .error (state, dirtyWords, c)
  | .ok destination =>
    match toAddressNumber destination with
    | .error c => .error (state, dirtyWords, c)
    | .ok target =>
      if evaluateCondition ifun state.conditionCodes then
        .ok ({ state with pc := target }, dirtyWords)
      else
        .ok ({ state with pc := pc + 9 }, dirtyWords)

/-- The `CALL` case of `executeInstruction`; note `rsp` is decremented
before the stack write, so a trapping write leaves it decremented. -/
def execCALL (state : SimulationState) (dirtyWords : List Nat) : ExecResult :=
  let pc := state.pc
  match readUnsignedQuad state.memory (pc + 1) with
  | .error c => .error (state, dirtyWords, c)
  | .ok destination =>
    match toAddressNumber destination with
    | .error c => .error (state, dirtyWords, c)
    | .ok target =>
      let returnAddress := pc + 9
      let rspNew := normalize64 (state.registers .rsp - 8)
      let state1 := { state with registers := updReg state.registers .rsp rspNew }
      match bigIntToNumber rspNew with
      | .error c => .error (state1, dirtyWords, c)
      | .ok stackAddr =>
        match writeQuad state1.memory stackAddr (Int.ofNat returnAddress) dirtyWords with
        | .error c => .error (state1, dirtyWords, c)
        | .ok (memory', dirty') =>
          .ok ({ state1 with memory := memory', pc := target }, dirty')

/-- The `RET` case of `executeInstruction`; `rsp` is incremented before the
target bounds check, so a trapping target leaves it incremented. -/
def execRET (state : SimulationState) (dirtyWords : List Nat) : ExecResult :=
  match bigIntToNumber (state.registers .rsp) with
  | .error c => .error (state, dirtyWords, c)
  | .ok stackAddr =>
    match readUnsignedQuad state.memory stackAddr with
    | .error c => .error (state, dirtyWords, c)
    | .ok returnAddress =>
      let rspNew := normalize64 (state.registers .rsp + 8)
      let state1 := { state with registers := updReg state.registers .rsp rspNew }
      match toAddressNumber returnAddress with
      | .error c => .error (state1, dirtyWords, c)
      | .ok target => .ok ({ state1 with pc := target }, dirtyWords)

/-- The `PUSHQ` case of `executeInstruction`; the pushed value is read
after `rsp` was decremented (so `push rsp` pushes the new `rsp`). -/
def execPUSHQ (state : SimulationState) (dirtyWords : List Nat) : ExecResult :=
  let pc := state.pc
  match readByte state.memory (pc + 1) with
  | .error c => .error (state, dirtyWords, c)
  | .ok regByte =>
    match getRegisterName ((regByte >>> 4) &&& 15) with
    | none => .error (state, dirtyWords, .INS)
    | some src =>
      let rspNew := normalize64 (state.registers .rsp - 8)
      let state1 := { state with registers := updReg state.registers .rsp rspNew }
      match bigIntToNumber rspNew with
      | .error c => .error (state1, dirtyWords, c)
      | .ok stackAddr =>
        match writeQuad state1.memory stackAddr (state1.registers src) dirtyWords with
        | .error c => .error (state1, dirtyWords, c)
        | .ok (memory', dirty') =>
          .ok ({ state1 with memory := memory', pc := pc + 2 }, dirty')

/-- The `POPQ` case of `executeInstruction`; the destination register is
written first and `rsp` is then incremented from its possibly overwritten
value (so `pop rsp` ends with the popped value plus 8). -/
def execPOPQ (state : SimulationState) (dirtyWords : List Nat) : ExecResult :=
  let pc := state.pc
  match readByte state.memory (pc + 1) with
  | .error c => .error (state, dirtyWords, c)
  | .ok regByte =>
    match getRegisterName ((regByte >>> 4) &&& 15) with
    | none => .error (state, dirtyWords, .INS)
    | some dst =>
      match bigIntToNumber (state.registers .rsp) with
      | .error c => .error (state, dirtyWords, c)
      | .ok stackAddr =>
        match readSignedQuad state.memory stackAddr with
        | .error c => .error (state, dirtyWords, c)
        | .ok value =>
          let state1 := { state with registers := updReg state.registers dst value }
          let rspNew := normalize64 (state1.registers .rsp + 8)
          let state2 := { state1 with registers := updReg state1.registers .rsp rspNew }
          .ok ({ state2 with pc := pc + 2 }, dirtyWords)

/-- `executeInstruction` from `cpu.ts`: bounds-check the program counter,
fetch the opcode byte, split it into `icode`/`ifun`, and dispatch. -/
def executeInstruction (state : SimulationState) (dirtyWords : List Nat) : ExecResult :=
  let pc := state.pc
  if MEMORY_SIZE ≤ pc then .error (state, dirtyWords, .ADR)
  else
    let opcode := state.memory pc
    let icode := (opcode >>> 4) &&& 15
    let ifun := opcode &&& 15
    if icode = 0 then .ok ({ state with stat := .HLT, pc := pc + 1 }, dirtyWords)
    else if icode = 1 then .ok ({ state with pc := pc + 1 }, dirtyWords)
    else if icode = 2 then execRRMOVQ state dirtyWords ifun
    else if icode = 3 then execIRMOVQ state dirtyWords
    else if icode = 4 then execRMMOVQ state dirtyWords
    else if icode = 5 then execMRMOVQ state dirtyWords
    else if icode = 6 then execOPQ state dirtyWords ifun
    else if icode = 7 then execJXX state dirtyWords ifun
    else if icode = 8 then execCALL state dirtyWords
    else if icode = 9 then execRET state dirtyWords
    else if icode = 10 then execPUSHQ state dirtyWords
    else if icode = 11 then execPOPQ state dirtyWords
    else .error (state, dirtyWords, .INS)

/-- The whitespace class of the regular expressions `\s` and of
`String.prototype.trim` (the ASCII members; the loader's inputs are
ASCII object-code text). -/
def isWsChar (c : Char) : Bool :=
  decide (c = ' ' ∨ c = '\t' ∨ c = '\n' ∨ c = '\r' ∨ c = '\x0b' ∨ c = '\x0c')

/-- The character class `[0-9a-fA-F]` of the record regular expression. -/
def isHexDigitChar (c : Char) : Bool :=
  decide (('0' ≤ c ∧ c ≤ '9') ∨ ('a' ≤ c ∧ c ≤ 'f') ∨ ('A' ≤ c ∧ c ≤ 'F'))

/-- The value `parseInt` assigns to one hexadecimal digit. -/
def hexDigitVal (c : Char) : Nat :=
  if '0' ≤ c ∧ c ≤ '9' then c.toNat - 48
  else if 'a' ≤ c ∧ c ≤ 'f' then c.toNat - 87
  else if 'A' ≤ c ∧ c ≤ 'F' then c.toNat - 55
  else 0

/-- `parseInt(s, 16)` on a string of hexadecimal digits. -/
def hexVal (l : List Char) : Nat :=
  l.foldl (fun acc c => acc * 16 + hexDigitVal c) 0

/-- `String.prototype.trim`: strip leading and trailing whitespace. -/
def trimChars (l : List Char) : List Char :=
  ((l.dropWhile isWsChar).reverse.dropWhile isWsChar).reverse

/-- The per-line preprocessing of `parseYoProgram`:
`rawLine.split('#')[0]`, then `split('|')[0]`, then `trim()`. -/
def stripLine (l : List Char) : List Char :=
  trimChars ((l.takeWhile (fun c => decide (c ≠ '#'))).takeWhile (fun c => decide (c ≠ '|')))

/-- The record regular expression `^0x([0-9a-fA-F]+):\s*([0-9a-fA-F]+)` of
`parseYoProgram`. Greedy matching with the non-hex barrier `:` means group
1 is the maximal hex run after `0x`, and group 2 is the maximal hex run
after the following whitespace; the match need not reach the end of the
line. -/
def matchRecord (l : List Char) : Option (List Char × List Char) :=
  match l with
  | '0' :: 'x' :: rest =>
    let addrHex := rest.takeWhile isHexDigitChar
    if addrHex.isEmpty then none
    else
      match rest.dropWhile isHexDigitChar with
      | ':' :: rest3 =>
        let bytesHex := (rest3.dropWhile isWsChar).takeWhile isHexDigitChar
        if bytesHex.isEmpty then none else some (addrHex, bytesHex)
      | _ => none
  | _ => none

/-- The byte-writing loop of `parseYoProgram`: successive two-character
slices (a trailing single character forms its own slice) are written to
consecutive targets, each bounds-checked before the write. -/
def loadBytes : Mem → List Nat → List Char → Nat → Except StatusCode (Mem × List Nat)
  | memory, dirty, [], _ => .ok (memory, dirty)
  | memory, dirty, [c1], target =>
    if MEMORY_SIZE ≤ target then .error .ADR
    else .ok (updMem memory target (hexVal [c1]), markMemoryRangeDirty dirty target 1)
  | memory, dirty, c1 :: c2 :: rest, target =>
    if MEMORY_SIZE ≤ target then .error .ADR
    else loadBytes (updMem memory target (hexVal [c1, c2]))
      (markMemoryRangeDirty dirty target 1) rest (target + 1)

/-- The loader's accumulator across lines: memory image, dirty words, and
the running minimum address (`entryPoint`, `null` before any record). -/
structure ParseAcc where
  memory : Mem
  dirtyWords : List Nat
  entryPoint : Option Nat

/-- One iteration of `parseYoProgram`'s line loop: preprocess, match the
record pattern, bounds-check the address, write the byte pairs (the
`replace(/\s+/g, '')` on group 2 is kept although the group never contains
whitespace), then fold the address into the entry point. -/
def processLine (acc : ParseAcc) (rawLine : List Char) : Except StatusCode ParseAcc :=
  let line := stripLine rawLine
  if line.isEmpty then .ok acc
  else
    match matchRecord line with
    | none => .ok acc
    | some (addrHex, bytesHex) =>
      let address := hexVal addrHex
      if MEMORY_SIZE ≤ address then .error .ADR
      else
        let bytes := bytesHex.filter (fun c => !(isWsChar c))
        match loadBytes acc.memory acc.dirtyWords bytes address with
        | .error c => .error c
        | .ok (memory', dirty') =>
          let entry' :=
            match acc.entryPoint with
            | none => address
            | some e => min e address
          .ok { memory := memory', dirtyWords := dirty', entryPoint := some entry' }

/-- The line loop of `parseYoProgram`; a thrown `ADR` aborts the whole
parse. -/
def parseLines : ParseAcc → List (List Char) → Except StatusCode ParseAcc
  | acc, [] => .ok acc
  | acc, l :: ls =>
    match processLine acc l with
    | .error c => .error c
    | .ok acc' => parseLines acc' ls

/-- `ParsedProgram` from `cpu.ts`. -/
structure ParsedProgram where
  memory : Mem
  entryPoint : Nat
  dirtyWords : List Nat

/-- `parseYoProgram` from `cpu.ts`, over the already-split lines of the
object-code text (the source splits on `/\r?\n/`). -/
def parseYoProgram (lines : List (List Char)) : Except StatusCode ParsedProgram :=
  match parseLines { memory := zeroMem, dirtyWords := [], entryPoint := none } lines with
  | .error c => .error c
  | .ok acc =>
    .ok { memory := acc.memory, entryPoint := acc.entryPoint.getD 0,
          dirtyWords := acc.dirtyWords }

/-- The flag sub-record of a serialized trace entry; the source serializes
each flag as the number 1 or 0. -/
structure CCNums where
  ZF : Nat
  SF : Nat
  OF : Nat
deriving DecidableEq

/-- A serialized trace entry (`RemoteCycle` in `cpu.ts`). Register values
are serialized through exact decimal strings, kept here as their `Int`
values; the memory sub-record maps dirty word bases to word values. -/
structure RemoteCycle where
  PC : Nat
  STAT : StatusCode
  REG : RegisterFile
  CC : CCNums
  MEM : List (Nat × Nat)

/-- Ascending insertion used to model `sort((a, b) => a - b)`. -/
def insertSorted (a : Nat) : List Nat → List Nat
  | [] => [a]
  | b :: bs => if a ≤ b then a :: b :: bs else b :: insertSorted a bs

/-- Ascending numeric sort of the dirty-address list. -/
def sortNats (l : List Nat) : List Nat := l.foldr insertSorted []

/-- The word-assembly loop of `snapshotMemory`: combine up to eight bytes,
stopping at the memory bound. -/
def wordAt (memory : Mem) (address : Nat) : Nat :=
  (List.range 8).foldl
    (fun value i =>
      if address + i < MEMORY_SIZE then value ||| (memory (address + i) <<< (i * 8))
      else value) 0

/-- `snapshotMemory` from `cpu.ts`: the in-range dirty addresses, sorted
ascending, each paired with its assembled word value. -/
def snapshotMemory (memory : Mem) (dirtyWords : List Nat) : List (Nat × Nat) :=
  (sortNats (dirtyWords.filter (fun a => decide (a < MEMORY_SIZE)))).map
    (fun a => (a, wordAt memory a))

/-- Flag serialization: `flag ? 1 : 0`. -/
def b2n (b : Bool) : Nat := if b then 1 else 0

/-- `serializeState` from `cpu.ts`. -/
def serializeState (state : SimulationState) (dirtyWords : List Nat) : RemoteCycle :=
  { PC := state.pc
    STAT := state.stat
    REG := state.registers
    CC := { ZF := b2n state.conditionCodes.ZF, SF := b2n state.conditionCodes.SF,
            OF := b2n state.conditionCodes.OF }
    MEM := if 0 < dirtyWords.length then snapshotMemory state.memory dirtyWords else [] }

/-- `createRegisterFile` from `cpu.ts` (also the register literal of
`createInitialState`): all registers zero except `rsp = MEMORY_SIZE`. -/
def createRegisterFile : RegisterFile :=
  fun r =>
    match r with
    | .rax => 0
    | .rcx => 0
    | .rdx => 0
    | .rbx => 0
    | .rsp => (MEMORY_SIZE : Int)
    | .rbp => 0
    | .rsi => 0
    | .rdi => 0
    | .r8 => 0
    | .r9 => 0
    | .r10 => 0
    | .r11 => 0
    | .r12 => 0
    | .r13 => 0
    | .r14 => 0

/-- The `while (steps < MAX_SIMULATION_STEPS && state.stat === AOK)` loop
of `simulateYoProgram`: execute one instruction with a fresh dirty set
(the source clears the set after each entry), catch a thrown error into
the status, and append one serialized entry per attempted step. -/
def runSim : Nat → SimulationState → List RemoteCycle → SimulationState × List RemoteCycle
  | 0, state, trace => (state, trace)
  | fuel + 1, state, trace =>
    if state.stat = .AOK then
      let next :=
        match executeInstruction state [] with
        | .ok (s', d') => (s', d')
        | .error (s', d', c) => ({ s' with stat := c }, d')
      runSim fuel next.1 (trace ++ [serializeState next.1 next.2])
    else (state, trace)

/-- `simulateYoProgram` from `cpu.ts`: parse, build the initial state
(registers from `createRegisterFile`, all three flags false, `pc` at the
entry point), record entry 0, run the step loop, and force `HLT` with one
final entry if the step bound ran out while still `AOK`. -/
def simulateYoProgram (lines : List (List Char)) : Except StatusCode (List RemoteCycle) :=
  match parseYoProgram lines with
  | .error c => .error c
  | .ok prog =>
    let state : SimulationState :=
      { pc := prog.entryPoint, stat := .AOK, registers := createRegisterFile,
        conditionCodes := { ZF := false, SF := false, OF := false }, memory := prog.memory }
    let trace := [serializeState state prog.dirtyWords]
    let result := runSim MAX_SIMULATION_STEPS state trace
    if result.1.stat = .AOK then
      let halted := { result.1 with stat := StatusCode.HLT }
      .ok (result.2 ++ [serializeState halted []])
    else .ok result.2

/-- `CPUState` from `types.ts`. -/
structure CPUState where
  pc : Nat
  stat : StatusCode
  registers : RegisterFile
  conditionCodes : Flags
  memory : Mem
  cycle : Nat

/-- `createInitialState` from `cpu.ts`: zeroed machine, `rsp` at the top of
memory, and — unlike the run driver's initial flags — `ZF` true. -/
def createInitialState : CPUState :=
  { pc := 0, stat := .AOK, registers := createRegisterFile,
    conditionCodes := { ZF := true, SF := false, OF := false },
    memory := zeroMem, cycle := 0 }

/-- Log-entry types (`ExecutionLog.type` in `types.ts`); messages and
timestamps are dropped. -/
inductive LogType where
  | info
  | warning
  | error
  | success
deriving DecidableEq

/-- `SimulatorSnapshot` from `types.ts`; register values are kept as `Int`
instead of zero-padded hex strings, and the memory map lists nonzero word
bases with their word values. -/
structure SimSnapshot where
  pc : Nat
  stat : StatusCode
  registers : RegisterFile
  conditionCodes : Flags
  memory : List (Nat × Nat)
  cycle : Nat

/-- `ExecutionSnapshot` from `types.ts`; the `Date.now()`-based id and
timestamp and the display label are dropped. -/
structure ExecSnapshot where
  cycle : Nat
  pc : Nat
  stat : StatusCode
  registers : RegisterFile
  conditionCodes : Flags
  memory : Mem

/-- The comparison operators a breakpoint condition may use. -/
inductive CmpOp where
  | opEq
  | opNe
  | opGt
  | opLt
  | opGe
  | opLe
deriving DecidableEq

/-- A breakpoint condition `<register> <op> <integer literal>`, modelled
pre-parsed; the source parses the condition string with a regular
expression at evaluation time. No claim below concerns condition parsing. -/
structure BreakCond where
  reg : Reg
  op : CmpOp
  value : Int
deriving DecidableEq

/-- `Breakpoint` from `types.ts`; the `Date.now()`-based id is dropped. -/
structure Breakpoint where
  address : Nat
  enabled : Bool
  condition : Option BreakCond
  hitCount : Nat
deriving DecidableEq

/-- `BreakpointHit` from `types.ts`. -/
structure BreakpointHit where
  breakpoint : Breakpoint
  cycle : Nat
  pc : Nat

/-- The private fields of the `Y86CPU` class. `currentIndex` starts at -1,
so it is an `Int`. -/
structure Session where
  state : CPUState
  logs : List LogType
  history : List SimSnapshot
  executionHistory : List ExecSnapshot
  breakpoints : List (Nat × Breakpoint)
  lastBreakpointHit : Option BreakpointHit
  trace : List RemoteCycle
  currentIndex : Int
  running : Bool
  statBeforeBreakpoint : Option StatusCode

/-- `this.log(type, message)`; only the entry type is kept. -/
def addLog (s : Session) (t : LogType) : Session :=
  { s with logs := s.logs ++ [t] }

/-- A freshly constructed `Y86CPU` (`createCPU`): field initializers only. -/
def createCPU : Session :=
  { state := createInitialState, logs := [], history := [], executionHistory := [],
    breakpoints := [], lastBreakpointHit := none, trace := [], currentIndex := -1,
    running := false, statBeforeBreakpoint := none }

/-- `Y86CPU.reset`: every field is reinstated except `this.breakpoints`,
which the method does not touch; one info log entry is written. -/
def reset (s : Session) : Session :=
  addLog
    { s with
      state := createInitialState
      logs := []
      history := []
      executionHistory := []
      trace := []
      currentIndex := -1
      running := false
      statBeforeBreakpoint := none
      lastBreakpointHit := none }
    .info

/-- `convertFlags` from `cpu.ts`: a flag is set iff its serialized number
is 1. -/
def convertFlags (cc : CCNums) : Flags :=
  { ZF := decide (cc.ZF = 1), SF := decide (cc.SF = 1), OF := decide (cc.OF = 1) }

/-- The per-entry loop body of `convertMemory`: write the word's eight
bytes `(word >>> (8*i)) & 0xff`, stopping at the memory bound. -/
def writeWordBytes (memory : Mem) (address word : Nat) : Mem :=
  fun x =>
    if address ≤ x ∧ x < address + 8 ∧ x < MEMORY_SIZE then (word >>> ((x - address) * 8)) &&& 255
    else memory x

/-- `convertMemory` from `cpu.ts`: copy the previous memory, then apply
every in-range word entry of the trace record. -/
def convertMemory (entries : List (Nat × Nat)) (previousMemory : Mem) : Mem :=
  entries.foldl
    (fun m e => if e.1 < MEMORY_SIZE then writeWordBytes m e.1 e.2 else m) previousMemory

/-- `applyRemoteState` from `cpu.ts`; register and status conversion are
exact round-trips (see the module comment), flag and memory conversion
are `convertFlags`/`convertMemory`. -/
def applyRemoteState (s : Session) (entry : RemoteCycle) (cycleIndex : Nat) : Session :=
  { s with state :=
    { pc := entry.PC, stat := entry.STAT, registers := entry.REG,
      conditionCodes := convertFlags entry.CC,
      memory := convertMemory entry.MEM s.state.memory, cycle := cycleIndex } }

/-- The `hasData` scan of `saveSnapshot`: some byte of the 8-byte word at
`i` is nonzero. -/
def nonzeroWord (memory : Mem) (i : Nat) : Bool :=
  (List.range 8).any (fun j => decide (memory (i + j) ≠ 0))

/-- The word-assembly loop of `saveSnapshot`. -/
def wordValue (memory : Mem) (i : Nat) : Nat :=
  (List.range 8).foldl (fun v j => v ||| (memory (i + j) <<< (j * 8))) 0

/-- The snapshot record `saveSnapshot` builds: state copy plus the nonzero
words of memory, scanned in 8-byte strides. -/
def mkSimSnapshot (st : CPUState) : SimSnapshot :=
  { pc := st.pc, stat := st.stat, registers := st.registers,
    conditionCodes := st.conditionCodes, cycle := st.cycle,
    memory :=
      ((List.range (MEMORY_SIZE / 8)).map (fun j => j * 8)).foldl
        (fun entries i =>
          if nonzeroWord st.memory i then entries ++ [(i, wordValue st.memory i)]
          else entries) [] }

/-- `Y86CPU.saveSnapshot`. -/
def saveSnapshot (s : Session) : Session :=
  { s with history := s.history ++ [mkSimSnapshot s.state] }

/-- `Y86CPU.captureSnapshot` (id and timestamp dropped). -/
def captureSnapshot (s : Session) : Session :=
  { s with executionHistory := s.executionHistory ++
      [{ cycle := s.state.cycle, pc := s.state.pc, stat := s.state.stat,
         registers := s.state.registers, conditionCodes := s.state.conditionCodes,
         memory := s.state.memory }] }

/-- `Y86CPU.hasNextStep`: a trace is loaded and the cursor is not at its
last entry. -/
def hasNextStep (s : Session) : Bool :=
  decide (0 < s.trace.length ∧ s.currentIndex < (s.trace.length : Int) - 1)

/-- Evaluation of a pre-parsed breakpoint condition against the current
register file (the `switch` of `evaluateBreakpointCondition`). -/
def evaluateBreakpointCondition (st : CPUState) (cond : BreakCond) : Bool :=
  let current := st.registers cond.reg
  match cond.op with
  | .opEq => decide (current = cond.value)
  | .opNe => decide (current ≠ cond.value)
  | .opGt => decide (cond.value < current)
  | .opLt => decide (current < cond.value)
  | .opGe => decide (cond.value ≤ current)
  | .opLe => decide (current ≤ cond.value)

/-- `Y86CPU.checkBreakpoint`: look up the breakpoint at `address`; it fires
if enabled and its condition (when present) holds, incrementing its hit
counter in the map. -/
def checkBreakpoint (s : Session) (address : Nat) : Option BreakpointHit × Session :=
  match s.breakpoints.find? (fun p => decide (p.1 = address)) with
  | none => (none, s)
  | some (_, bp) =>
    if !bp.enabled then (none, s)
    else
      let condBlocks : Bool :=
        match bp.condition with
        | some cond => !evaluateBreakpointCondition s.state cond
        | none => false
      if condBlocks then (none, s)
      else
        let bp' := { bp with hitCount := bp.hitCount + 1 }
        let breakpoints' := s.breakpoints.map (fun p => if p.1 = address then (address, bp') else p)
        (some { breakpoint := bp', cycle := s.state.cycle, pc := address },
         { s with breakpoints := breakpoints' })

/-- Placeholder trace entry for the (unreachable) out-of-bounds index in
the guarded `this.trace[...]` accesses. -/
def defaultRemoteCycle : RemoteCycle :=
  { PC := 0, STAT := .AOK, REG := createRegisterFile,
    CC := { ZF := 0, SF := 0, OF := 0 }, MEM := [] }

/-- The breakpoint-interception tail of `Y86CPU.step`: consult the
breakpoint map at the new `pc` — on a hit the pre-hit status is
remembered, the status is forced to `HLT`, `running` is cleared and a
warning is logged; the method's return value is `this.running`. -/
def stepApplyBreakpoint (s : Session) : Bool × Session :=
  match checkBreakpoint s s.state.pc with
  | (some hit, s5) =>
    let s6 := addLog
      { s5 with
        lastBreakpointHit := some hit
        statBeforeBreakpoint := some s5.state.stat
        state := { s5.state with stat := .HLT }
        running := false }
      .warning
    (s6.running, s6)
  | (none, s5) => (s5.running, s5)

/-- `Y86CPU.step`: if no next entry exists, clear `running` and report
`false`; otherwise apply the next trace entry, advance the cursor, record
both snapshots and a log entry, recompute `running` from the entry's
status, and run the breakpoint interception. -/
def step (s : Session) : Bool × Session :=
  if hasNextStep s = false then (false, { s with running := false })
  else
    let nextIndex := s.currentIndex + 1
    let entry := s.trace.getD nextIndex.toNat defaultRemoteCycle
    let s1 := applyRemoteState s entry nextIndex.toNat
    let s2 := { s1 with currentIndex := nextIndex }
    let s3 := addLog (captureSnapshot (saveSnapshot s2)) .info
    let s4 := { s3 with running := decide (entry.STAT = .AOK) && hasNextStep s3 }
    stepApplyBreakpoint s4

/-- `Y86CPU.loadProgram`: reset, run the browser simulation, and on
success install the trace (with the reverse heuristic), apply entry 0,
set `running`, log, and record both snapshots; on a thrown error or an
empty trace, log and report failure. -/
def loadProgram (s : Session) (yoContent : List (List Char)) : Bool × Session :=
  let s0 := reset s
  match simulateYoProgram yoContent with
  | .error _ => (false, addLog s0 .error)
  | .ok trace =>
    if trace.length = 0 then (false, addLog s0 .warning)
    else
      let needsReverse :=
        decide (1 < trace.length) &&
          !(decide ((trace.getD 0 defaultRemoteCycle).STAT = StatusCode.AOK)) &&
          decide ((trace.getD (trace.length - 1) defaultRemoteCycle).STAT = StatusCode.AOK)
      let tr := if needsReverse then trace.reverse else trace
      let s1 := { s0 with trace := tr, currentIndex := 0 }
      let s2 := applyRemoteState s1 (tr.getD 0 defaultRemoteCycle) 0
      let s3 := { s2 with running := decide (1 < tr.length) }
      (true, captureSnapshot (saveSnapshot (addLog s3 .success)))

/-- `Map.set` on the address-keyed breakpoint map: replace the existing
entry or append a new one. -/
def mapSet : List (Nat × Breakpoint) → Nat → Breakpoint → List (Nat × Breakpoint)
  | [], a, bp => [(a, bp)]
  | p :: ps, a, bp => if p.1 = a then (a, bp) :: ps else p :: mapSet ps a bp

/-- `Y86CPU.addBreakpoint` (the returned record itself is not modelled;
the id is `Date.now()`-based and dropped). One info log entry is written. -/
def addBreakpoint (s : Session) (address : Nat) (condition : Option BreakCond) : Session :=
  let bp : Breakpoint := { address := address, enabled := true, condition := condition,
                           hitCount := 0 }
  addLog { s with breakpoints := mapSet s.breakpoints address bp } .info

theorem asIntN64_eq_self (v : Int) (h1 : -(2 ^ 63) ≤ v) (h2 : v < 2 ^ 63) : asIntN64 v = v := by
  unfold asIntN64
  simp only []
  omega

theorem asIntN64_range (v : Int) : -(2 ^ 63) ≤ asIntN64 v ∧ asIntN64 v < 2 ^ 63 := by
  unfold asIntN64
  simp only []
  omega

theorem intOfNat_asUintN64 (v : Int) : Int.ofNat (asUintN64 v) = v % ((2 : Int) ^ 64) := by
  unfold asUintN64
  exact Int.toNat_of_nonneg (Int.emod_nonneg v (by norm_num))

theorem asUintN64_lt (v : Int) : asUintN64 v < 2 ^ 64 := by
  unfold asUintN64
  have h1 := Int.emod_nonneg v (show ((2 : Int) ^ 64) ≠ 0 by norm_num)
  have h2 := Int.emod_lt_of_pos v (show (0 : Int) < 2 ^ 64 by norm_num)
  omega

theorem asIntN64_emod (v : Int) : asIntN64 (v % ((2 : Int) ^ 64)) = asIntN64 v := by
  unfold asIntN64
  rw [Int.emod_emod_of_dvd v dvd_rfl]

theorem lor_mul_two_pow_eq_add (k : Nat) :
    ∀ a b : Nat, a < 2 ^ k → a ||| (b * 2 ^ k) = a + b * 2 ^ k := by
  induction k with
  | zero =>
    intro a b h
    interval_cases a
    simp
  | succ k ih =>
    intro a b h
    have hs : b * 2 ^ (k + 1) = (b * 2 ^ k) * 2 := by ring
    have hdiv : (a ||| b * 2 ^ (k + 1)) / 2 = a / 2 + b * 2 ^ k := by
      rw [Nat.or_div_two, hs, Nat.mul_div_cancel _ (by norm_num)]
      exact ih (a / 2) b (by omega)
    have hmod1 : (a ||| b * 2 ^ (k + 1)) % 2 = 1 ↔ a % 2 = 1 ∨ b * 2 ^ (k + 1) % 2 = 1 :=
      Nat.or_mod_two_eq_one
    have h2 : b * 2 ^ (k + 1) % 2 = 0 := by rw [hs]; exact Nat.mul_mod_left _ _
    have hdm := Nat.div_add_mod (a ||| b * 2 ^ (k + 1)) 2
    have hdm2 := Nat.div_add_mod a 2
    rw [hs] at *
    generalize b * 2 ^ k = m at *
    omega

theorem and_255_eq_mod (n : Nat) : n &&& 255 = n % 256 := by
  have := Nat.and_pow_two_sub_one_eq_mod n 8
  norm_num at this
  exact this

theorem readQuadVal_eq_sum (memory : Mem) (a : Nat) (h : ∀ i, i < 8 → memory (a + i) < 256) :
    readQuadVal memory a =
      memory (a + 0) + memory (a + 1) * 2 ^ 8 + memory (a + 2) * 2 ^ 16 +
      memory (a + 3) * 2 ^ 24 + memory (a + 4) * 2 ^ 32 + memory (a + 5) * 2 ^ 40 +
      memory (a + 6) * 2 ^ 48 + memory (a + 7) * 2 ^ 56 := by
  have h0 : memory a < 256 := by simpa using h 0 (by norm_num)
  have h1 := h 1 (by norm_num)
  have h2 := h 2 (by norm_num)
  have h3 := h 3 (by norm_num)
  have h4 := h 4 (by norm_num)
  have h5 := h 5 (by norm_num)
  have h6 := h 6 (by norm_num)
  have h7 := h 7 (by norm_num)
  have hrange : List.range 8 = [0, 1, 2, 3, 4, 5, 6, 7] := rfl
  unfold readQuadVal
  rw [hrange]
  simp only [List.foldl_cons, List.foldl_nil, Nat.shiftLeft_eq, Nat.zero_or]
  norm_num
  generalize hb1 : memory (a + 1) = b1 at *
  generalize hb2 : memory (a + 2) = b2 at *
  generalize hb3 : memory (a + 3) = b3 at *
  generalize hb4 : memory (a + 4) = b4 at *
  generalize hb5 : memory (a + 5) = b5 at *
  generalize hb6 : memory (a + 6) = b6 at *
  generalize hb7 : memory (a + 7) = b7 at *
  rw [show (256 : Nat) = 2 ^ 8 by norm_num,
      show (65536 : Nat) = 2 ^ 16 by norm_num,
      show (16777216 : Nat) = 2 ^ 24 by norm_num,
      show (4294967296 : Nat) = 2 ^ 32 by norm_num,
      show (1099511627776 : Nat) = 2 ^ 40 by norm_num,
      show (281474976710656 : Nat) = 2 ^ 48 by norm_num,
      show (72057594037927936 : Nat) = 2 ^ 56 by norm_num]
  rw [lor_mul_two_pow_eq_add 8 (memory a) b1 (by omega)]
  rw [lor_mul_two_pow_eq_add 16 _ b2 (by omega)]
  rw [lor_mul_two_pow_eq_add 24 _ b3 (by omega)]
  rw [lor_mul_two_pow_eq_add 32 _ b4 (by omega)]
  rw [lor_mul_two_pow_eq_add 40 _ b5 (by omega)]
  rw [lor_mul_two_pow_eq_add 48 _ b6 (by omega)]
  rw [lor_mul_two_pow_eq_add 56 _ b7 (by omega)]

theorem readQuadVal_writeBytes (memory : Mem) (a u : Nat) (hu : u < 2 ^ 64) :
    readQuadVal
      (fun x => if a ≤ x ∧ x < a + 8 then (u >>> ((x - a) * 8)) &&& 255 else memory x) a = u := by
  have hbyte : ∀ i, i < 8 →
      (if a ≤ a + i ∧ a + i < a + 8 then (u >>> ((a + i - a) * 8)) &&& 255 else memory (a + i))
        = u / 2 ^ (i * 8) % 256 := by
    intro i hi
    rw [if_pos (by omega), Nat.add_sub_cancel_left, Nat.shiftRight_eq_div_pow, and_255_eq_mod]
  have hlt : ∀ i, i < 8 →
      (fun x => if a ≤ x ∧ x < a + 8 then (u >>> ((x - a) * 8)) &&& 255 else memory x) (a + i)
        < 256 := by
    intro i hi
    simp only []
    rw [hbyte i hi]
    omega
  rw [readQuadVal_eq_sum _ a hlt]
  rw [hbyte 0 (by norm_num), hbyte 1 (by norm_num), hbyte 2 (by norm_num),
      hbyte 3 (by norm_num), hbyte 4 (by norm_num), hbyte 5 (by norm_num),
      hbyte 6 (by norm_num), hbyte 7 (by norm_num)]
  norm_num
  omega

theorem writeQuad_roundTrip (memory : Mem) (a : Nat) (v : Int) (d : List Nat)
    (ha : a + 7 < MEMORY_SIZE) (h1 : -(2 ^ 63) ≤ v) (h2 : v < 2 ^ 63) :
    ∃ memory' dirty', writeQuad memory a v d = .ok (memory', dirty') ∧
      readSignedQuad memory' a = .ok v ∧
      ∀ x, (x < a ∨ a + 8 ≤ x) → memory' x = memory x := by
  unfold writeQuad
  rw [if_neg (by omega)]
  simp only []
  refine ⟨_, _, rfl, ?_, ?_⟩
  · unfold readSignedQuad
    rw [if_neg (by intro hq; omega)]
    rw [readQuadVal_writeBytes memory a (asUintN64 v) (asUintN64_lt v)]
    rw [intOfNat_asUintN64, asIntN64_emod, asIntN64_eq_self v h1 h2]
  · intro x hx
    rw [if_neg (by omega)]

theorem updReg_same (f : RegisterFile) (r : Reg) (v : Int) : updReg f r v r = v := by
  simp [updReg]

theorem updReg_other (f : RegisterFile) (r x : Reg) (v : Int) (h : x ≠ r) :
    updReg f r v x = f x := by
  simp [updReg, h]

theorem evaluateCondition_of_seven_le (code : Nat) (flags : Flags) (h : 7 ≤ code) :
    evaluateCondition code flags = false := by
  unfold evaluateCondition
  rw [if_neg (by intro hq; omega), if_neg (by omega), if_neg (by intro hq; omega), if_neg (by omega),
      if_neg (by intro hq; omega), if_neg (by omega), if_neg (by intro hq; omega)]


/-- All register values lie in the signed 64-bit window. -/
def regsInRange (f : RegisterFile) : Prop :=
  ∀ r, -((2 : Int) ^ 63) ≤ f r ∧ f r < 2 ^ 63

theorem regsInRange_updReg {f : RegisterFile} {r : Reg} {v : Int} (hf : regsInRange f)
    (hv1 : -((2 : Int) ^ 63) ≤ v) (hv2 : v < 2 ^ 63) : regsInRange (updReg f r v) := by
  intro x
  unfold updReg
  by_cases hx : x = r
  · simp only [hx, if_pos rfl]
    exact ⟨hv1, hv2⟩
  · simp only [if_neg hx]
    exact hf x

theorem readSignedQuad_range {m : Mem} {a : Nat} {v : Int} (h : readSignedQuad m a = .ok v) :
    -((2 : Int) ^ 63) ≤ v ∧ v < 2 ^ 63 := by
  unfold readSignedQuad at h
  split at h
  · exact absurd h (by simp)
  · have hv : asIntN64 (Int.ofNat (readQuadVal m a)) = v := by
      injection h
    rw [← hv]
    exact asIntN64_range _

/-- The machine state an interpreter call leaves behind: the mutated state
on success, the partially mutated state on a thrown error. -/
def resultState (res : ExecResult) : SimulationState :=
  match res with
  | .ok (s', _) => s'
  | .error (s', _, _) => s'

theorem execRRMOVQ_regs (state : SimulationState) (d : List Nat) (ifun : Nat)
    (h : regsInRange state.registers) :
    regsInRange (resultState (execRRMOVQ state d ifun)).registers := by
  simp only [execRRMOVQ]
  cases readByte state.memory (state.pc + 1) with
  | error c => exact h
  | ok regByte =>
    simp only []
    cases getRegisterName (regByte >>> 4 &&& 15) with
    | none =>
      cases getRegisterName (regByte &&& 15) with
      | none => exact h
      | some dst => exact h
    | some src =>
      cases getRegisterName (regByte &&& 15) with
      | none => exact h
      | some dst =>
        simp only []
        by_cases hc : ifun = 0 ∨ evaluateCondition ifun state.conditionCodes
        · simp only [if_pos hc]
          exact regsInRange_updReg h (h src).1 (h src).2
        · simp only [if_neg hc]
          exact h

theorem execIRMOVQ_regs (state : SimulationState) (d : List Nat)
    (h : regsInRange state.registers) :
    regsInRange (resultState (execIRMOVQ state d)).registers := by
  simp only [execIRMOVQ]
  cases readByte state.memory (state.pc + 1) with
  | error c => exact h
  | ok regByte =>
    simp only []
    cases getRegisterName (regByte &&& 15) with
    | none => exact h
    | some dst =>
      simp only []
      cases readSignedQuad state.memory (state.pc + 2) with
      | error c => exact h
      | ok immediate =>
        exact regsInRange_updReg h (asIntN64_range _).1 (asIntN64_range _).2

theorem execRMMOVQ_regs (state : SimulationState) (d : List Nat)
    (h : regsInRange state.registers) :
    regsInRange (resultState (execRMMOVQ state d)).registers := by
  simp only [execRMMOVQ]
  cases readByte state.memory (state.pc + 1) with
  | error c => exact h
  | ok regByte =>
    simp only []
    cases getRegisterName (regByte >>> 4 &&& 15) with
    | none =>
      cases getRegisterName (regByte &&& 15) with
      | none => exact h
      | some base => exact h
    | some src =>
      cases getRegisterName (regByte &&& 15) with
      | none => exact h
      | some base =>
        simp only []
        cases readSignedQuad state.memory (state.pc + 2) with
        | error c => exact h
        | ok displacement =>
          simp only []
          cases bigIntToNumber (add64 (state.registers base) displacement) with
          | error c => exact h
          | ok address =>
            simp only []
            cases writeQuad state.memory address (state.registers src) d with
            | error c => exact h
            | ok p => exact h

theorem execMRMOVQ_regs (state : SimulationState) (d : List Nat)
    (h : regsInRange state.registers) :
    regsInRange (resultState (execMRMOVQ state d)).registers := by
  simp only [execMRMOVQ]
  cases readByte state.memory (state.pc + 1) with
  | error c => exact h
  | ok regByte =>
    simp only []
    cases getRegisterName (regByte >>> 4 &&& 15) with
    | none =>
      cases getRegisterName (regByte &&& 15) with
      | none => exact h
      | some base => exact h
    | some dst =>
      cases getRegisterName (regByte &&& 15) with
      | none => exact h
      | some base =>
        simp only []
        cases readSignedQuad state.memory (state.pc + 2) with
        | error c => exact h
        | ok displacement =>
          simp only []
          cases bigIntToNumber (add64 (state.registers base) displacement) with
          | error c => exact h
          | ok address =>
            simp only []
            cases hQ : readSignedQuad state.memory address with
            | error c => exact h
            | ok value =>
              exact regsInRange_updReg h (readSignedQuad_range hQ).1 (readSignedQuad_range hQ).2

theorem execOPQ_regs (state : SimulationState) (d : List Nat) (ifun : Nat)
    (h : regsInRange state.registers) :
    regsInRange (resultState (execOPQ state d ifun)).registers := by
  simp only [execOPQ, opqFinish]
  cases readByte state.memory (state.pc + 1) with
  | error c => exact h
  | ok regByte =>
    simp only []
    cases getRegisterName (regByte >>> 4 &&& 15) with
    | none =>
      cases getRegisterName (regByte &&& 15) with
      | none => exact h
      | some dst => exact h
    | some src =>
      cases getRegisterName (regByte &&& 15) with
      | none => exact h
      | some dst =>
        simp only []
        by_cases h0 : ifun = 0
        · simp only [if_pos h0]
          exact regsInRange_updReg h (asIntN64_range _).1 (asIntN64_range _).2
        · simp only [if_neg h0]
          by_cases h1 : ifun = 1
          · simp only [if_pos h1]
            exact regsInRange_updReg h (asIntN64_range _).1 (asIntN64_range _).2
          · simp only [if_neg h1]
            by_cases h2 : ifun = 2
            · simp only [if_pos h2]
              exact regsInRange_updReg h (asIntN64_range _).1 (asIntN64_range _).2
            · simp only [if_neg h2]
              by_cases h3 : ifun = 3
              · simp only [if_pos h3]
                exact regsInRange_updReg h (asIntN64_range _).1 (asIntN64_range _).2
              · simp only [if_neg h3]
                exact h

theorem execJXX_regs (state : SimulationState) (d : List Nat) (ifun : Nat)
    (h : regsInRange state.registers) :
    regsInRange (resultState (execJXX state d ifun)).registers := by
  simp only [execJXX]
  cases readUnsignedQuad state.memory (state.pc + 1) with
  | error c => exact h
  | ok destination =>
    simp only []
    cases toAddressNumber destination with
    | error c => exact h
    | ok target =>
      simp only []
      by_cases hc : evaluateCondition ifun state.conditionCodes = true
      · simp only [if_pos hc]
        exact h
      · simp only [if_neg hc]
        exact h

theorem execCALL_regs (state : SimulationState) (d : List Nat)
    (h : regsInRange state.registers) :
    regsInRange (resultState (execCALL state d)).registers := by
  simp only [execCALL]
  cases readUnsignedQuad state.memory (state.pc + 1) with
  | error c => exact h
  | ok destination =>
    simp only []
    cases toAddressNumber destination with
    | error c => exact h
    | ok target =>
      simp only []
      have h1 : regsInRange (updReg state.registers .rsp
          (normalize64 (state.registers .rsp - 8))) :=
        regsInRange_updReg h (asIntN64_range _).1 (asIntN64_range _).2
      cases bigIntToNumber (normalize64 (state.registers .rsp - 8)) with
      | error c => exact h1
      | ok stackAddr =>
        simp only []
        cases writeQuad state.memory stackAddr (Int.ofNat (state.pc + 9)) d with
        | error c => exact h1
        | ok p => exact h1

theorem execRET_regs (state : SimulationState) (d : List Nat)
    (h : regsInRange state.registers) :
    regsInRange (resultState (execRET state d)).registers := by
  simp only [execRET]
  cases bigIntToNumber (state.registers .rsp) with
  | error c => exact h
  | ok stackAddr =>
    simp only []
    cases readUnsignedQuad state.memory stackAddr with
    | error c => exact h
    | ok returnAddress =>
      simp only []
      have h1 : regsInRange (updReg state.registers .rsp
          (normalize64 (state.registers .rsp + 8))) :=
        regsInRange_updReg h (asIntN64_range _).1 (asIntN64_range _).2
      cases toAddressNumber returnAddress with
      | error c => exact h1
      | ok target => exact h1

theorem execPUSHQ_regs (state : SimulationState) (d : List Nat)
    (h : regsInRange state.registers) :
    regsInRange (resultState (execPUSHQ state d)).registers := by
  simp only [execPUSHQ]
  cases readByte state.memory (state.pc + 1) with
  | error c => exact h
  | ok regByte =>
    simp only []
    cases getRegisterName (regByte >>> 4 &&& 15) with
    | none => exact h
    | some src =>
      simp only []
      have h1 : regsInRange (updReg state.registers .rsp
          (normalize64 (state.registers .rsp - 8))) :=
        regsInRange_updReg h (asIntN64_range _).1 (asIntN64_range _).2
      cases bigIntToNumber (normalize64 (state.registers .rsp - 8)) with
      | error c => exact h1
      | ok stackAddr =>
        simp only []
        cases writeQuad state.memory stackAddr
            (updReg state.registers .rsp (normalize64 (state.registers .rsp - 8)) src) d with
        | error c => exact h1
        | ok p => exact h1

theorem execPOPQ_regs (state : SimulationState) (d : List Nat)
    (h : regsInRange state.registers) :
    regsInRange (resultState (execPOPQ state d)).registers := by
  simp only [execPOPQ]
  cases readByte state.memory (state.pc + 1) with
  | error c => exact h
  | ok regByte =>
    simp only []
    cases getRegisterName (regByte >>> 4 &&& 15) with
    | none => exact h
    | some dst =>
      simp only []
      cases bigIntToNumber (state.registers .rsp) with
      | error c => exact h
      | ok stackAddr =>
        simp only []
        cases hQ : readSignedQuad state.memory stackAddr with
        | error c => exact h
        | ok value =>
          exact regsInRange_updReg
            (regsInRange_updReg h (readSignedQuad_range hQ).1 (readSignedQuad_range hQ).2)
            (asIntN64_range _).1 (asIntN64_range _).2

/-- C10: for every state whose register values all lie in the signed
64-bit range `[-2^63, 2^63)`, executing one instruction — whatever
instruction it is, on either the success or the caught-error path —
yields a state whose register values all still lie in that range. -/
theorem c10_registers_stay_in_signed_range (state : SimulationState) (dirtyWords : List Nat)
    (h : ∀ r, -((2 : Int) ^ 63) ≤ state.registers r ∧ state.registers r < 2 ^ 63) :
    ∀ r, -((2 : Int) ^ 63) ≤ (resultState (executeInstruction state dirtyWords)).registers r ∧
      (resultState (executeInstruction state dirtyWords)).registers r < 2 ^ 63 := by
  have hr : regsInRange state.registers := h
  show regsInRange (resultState (executeInstruction state dirtyWords)).registers
  simp only [executeInstruction]
  by_cases hp : MEMORY_SIZE ≤ state.pc
  · simp only [if_pos hp]
    exact hr
  · simp only [if_neg hp]
    by_cases h0 : state.memory state.pc >>> 4 &&& 15 = 0
    · simp only [if_pos h0]
      exact hr
    · simp only [if_neg h0]
      by_cases h1 : state.memory state.pc >>> 4 &&& 15 = 1
      · simp only [if_pos h1]
        exact hr
      · simp only [if_neg h1]
        by_cases h2 : state.memory state.pc >>> 4 &&& 15 = 2
        · simp only [if_pos h2]
          exact execRRMOVQ_regs _ _ _ hr
        · simp only [if_neg h2]
          by_cases h3 : state.memory state.pc >>> 4 &&& 15 = 3
          · simp only [if_pos h3]
            exact execIRMOVQ_regs _ _ hr
          · simp only [if_neg h3]
            by_cases h4 : state.memory state.pc >>> 4 &&& 15 = 4
            · simp only [if_pos h4]
              exact execRMMOVQ_regs _ _ hr
            · simp only [if_neg h4]
              by_cases h5 : state.memory state.pc >>> 4 &&& 15 = 5
              · simp only [if_pos h5]
                exact execMRMOVQ_regs _ _ hr
              · simp only [if_neg h5]
                by_cases h6 : state.memory state.pc >>> 4 &&& 15 = 6
                · simp only [if_pos h6]
                  exact execOPQ_regs _ _ _ hr
                · simp only [if_neg h6]
                  by_cases h7 : state.memory state.pc >>> 4 &&& 15 = 7
                  · simp only [if_pos h7]
                    exact execJXX_regs _ _ _ hr
                  · simp only [if_neg h7]
                    by_cases h8 : state.memory state.pc >>> 4 &&& 15 = 8
                    · simp only [if_pos h8]
                      exact execCALL_regs _ _ hr
                    · simp only [if_neg h8]
                      by_cases h9 : state.memory state.pc >>> 4 &&& 15 = 9
                      · simp only [if_pos h9]
                        exact execRET_regs _ _ hr
                      · simp only [if_neg h9]
                        by_cases h10 : state.memory state.pc >>> 4 &&& 15 = 10
                        · simp only [if_pos h10]
                          exact execPUSHQ_regs _ _ hr
                        · simp only [if_neg h10]
                          by_cases h11 : state.memory state.pc >>> 4 &&& 15 = 11
                          · simp only [if_pos h11]
                            exact execPOPQ_regs _ _ hr
                          · simp only [if_neg h11]
                            exact hr

/-- A halt-instruction state used to instantiate hypotheses concretely. -/
def haltWitnessState : SimulationState :=
  { pc := 0, stat := .AOK, registers := createRegisterFile,
    conditionCodes := { ZF := false, SF := false, OF := false }, memory := zeroMem }

theorem c10_registers_stay_in_signed_range_witness :
    (∀ r, -((2 : Int) ^ 63) ≤ haltWitnessState.registers r ∧
      haltWitnessState.registers r < 2 ^ 63) ∧
    (-((2 : Int) ^ 63) ≤ (resultState (executeInstruction haltWitnessState [])).registers Reg.rax ∧
      (resultState (executeInstruction haltWitnessState [])).registers Reg.rax < 2 ^ 63) :=
  ⟨by decide, c10_registers_stay_in_signed_range haltWitnessState [] (by decide) Reg.rax⟩

/-- The status the run driver records for one attempted step: the state's
own status on success, the thrown error's status on failure (the `catch`
in `simulateYoProgram`). -/
def execStat (state : SimulationState) : StatusCode :=
  match executeInstruction state [] with
  | .ok (s', _) => s'.stat
  | .error (_, _, c) => c

/-- A state about to execute opcode `0x27`: conditional move with
function code 7, i.e. outside the 0–6 condition range. -/
def c2CmovBadState : SimulationState :=
  { pc := 0, stat := .AOK, registers := createRegisterFile,
    conditionCodes := { ZF := false, SF := false, OF := false },
    memory := updMem zeroMem 0 39 }

/-- C2 (counterexample): executing the conditional move `0x27` — a
recognized instruction code with a function code outside 0..6 — leaves the
status `AOK`; it does not raise `INS` as the claim states. -/
theorem c2_unrecognized_sets_INS_counterexample :
    (c2CmovBadState.memory c2CmovBadState.pc >>> 4) &&& 15 = 2 ∧
    7 ≤ c2CmovBadState.memory c2CmovBadState.pc &&& 15 ∧
    execStat c2CmovBadState = .AOK := by
  decide

/-- C2 (amended): an unrecognized instruction code (`icode ≥ 0xC`) raises
`INS`, and an ALU function code outside 0–3 raises `INS` (whether or not
the register byte is valid); but a conditional-move or conditional-jump
function code outside 0–6 is treated by `evaluateCondition` as a false
condition: the move is skipped (registers unchanged, `pc+2`) and the jump
falls through (`pc+9`), with the status left unchanged rather than `INS`. -/
theorem c2_unrecognized_codes :
    (∀ (state : SimulationState) (d : List Nat),
      state.pc < MEMORY_SIZE →
      12 ≤ (state.memory state.pc >>> 4) &&& 15 →
      executeInstruction state d = .error (state, d, .INS)) ∧
    (∀ (state : SimulationState) (d : List Nat),
      state.pc + 1 < MEMORY_SIZE →
      (state.memory state.pc >>> 4) &&& 15 = 6 →
      4 ≤ state.memory state.pc &&& 15 →
      executeInstruction state d = .error (state, d, .INS)) ∧
    (∀ (state : SimulationState) (d : List Nat) (src dst : Reg),
      state.pc + 1 < MEMORY_SIZE →
      (state.memory state.pc >>> 4) &&& 15 = 2 →
      7 ≤ state.memory state.pc &&& 15 →
      getRegisterName ((state.memory (state.pc + 1) >>> 4) &&& 15) = some src →
      getRegisterName (state.memory (state.pc + 1) &&& 15) = some dst →
      executeInstruction state d = .ok ({ state with pc := state.pc + 2 }, d)) ∧
    (∀ (state : SimulationState) (d : List Nat),
      state.pc + 8 < MEMORY_SIZE →
      (state.memory state.pc >>> 4) &&& 15 = 7 →
      7 ≤ state.memory state.pc &&& 15 →
      readQuadVal state.memory (state.pc + 1) % 2 ^ 64 < MEMORY_SIZE →
      executeInstruction state d = .ok ({ state with pc := state.pc + 9 }, d)) := by
  refine ⟨?_, ?_, ?_, ?_⟩
  · intro state d hpc hic
    simp only [executeInstruction]
    rw [if_neg (by omega), if_neg (by intro hq; omega), if_neg (by omega), if_neg (by intro hq; omega),
        if_neg (by omega), if_neg (by intro hq; omega), if_neg (by omega), if_neg (by intro hq; omega),
        if_neg (by omega), if_neg (by intro hq; omega), if_neg (by omega), if_neg (by intro hq; omega),
        if_neg (by omega)]
  · intro state d hpc hic hfn
    simp only [executeInstruction]
    rw [if_neg (by intro hq; omega), if_neg (by omega), if_neg (by intro hq; omega), if_neg (by omega),
        if_neg (by intro hq; omega), if_neg (by omega), if_neg (by intro hq; omega), if_pos hic]
    simp only [execOPQ, readByte]
    rw [if_neg (by omega)]
    simp only []
    cases getRegisterName ((state.memory (state.pc + 1) >>> 4) &&& 15) with
    | none =>
      cases getRegisterName (state.memory (state.pc + 1) &&& 15) with
      | none => rfl
      | some dst => rfl
    | some src =>
      cases getRegisterName (state.memory (state.pc + 1) &&& 15) with
      | none => rfl
      | some dst =>
        simp only []
        rw [if_neg (by intro hq; omega), if_neg (by omega), if_neg (by intro hq; omega), if_neg (by omega)]
  · intro state d src dst hpc hic hfn hsrc hdst
    simp only [executeInstruction]
    rw [if_neg (by intro hq; omega), if_neg (by omega), if_neg (by intro hq; omega), if_pos hic]
    simp only [execRRMOVQ, readByte]
    rw [if_neg (by omega)]
    simp only [hsrc, hdst]
    rw [if_neg ?hcond]
    case hcond =>
      intro hor
      rcases hor with h0 | hcnd
      · omega
      · rw [evaluateCondition_of_seven_le _ _ hfn] at hcnd
        exact absurd hcnd (by simp)
  · intro state d hpc hic hfn hdest
    simp only [executeInstruction]
    rw [if_neg (by intro hq; omega), if_neg (by omega), if_neg (by intro hq; omega), if_neg (by omega),
        if_neg (by intro hq; omega), if_neg (by omega), if_neg (by intro hq; omega), if_neg (by omega),
        if_pos hic]
    simp only [execJXX, readUnsignedQuad]
    rw [if_neg (by intro hq; omega)]
    simp only [toAddressNumber]
    rw [if_pos hdest]
    simp only []
    rw [if_neg (by rw [evaluateCondition_of_seven_le _ _ hfn]; simp)]

/-- A state about to execute opcode `0xC0`: instruction code 12, which no
instruction uses. -/
def c2IcodeBadState : SimulationState :=
  { pc := 0, stat := .AOK, registers := createRegisterFile,
    conditionCodes := { ZF := false, SF := false, OF := false },
    memory := updMem zeroMem 0 192 }

/-- A state about to execute opcode `0x64`: ALU operation with function
code 4, which no ALU operation uses. -/
def c2AluBadState : SimulationState :=
  { pc := 0, stat := .AOK, registers := createRegisterFile,
    conditionCodes := { ZF := false, SF := false, OF := false },
    memory := updMem zeroMem 0 100 }

/-- A state about to execute opcode `0x77`: conditional jump with function
code 7, target 0. -/
def c2JxxBadState : SimulationState :=
  { pc := 0, stat := .AOK, registers := createRegisterFile,
    conditionCodes := { ZF := false, SF := false, OF := false },
    memory := updMem zeroMem 0 119 }

theorem c2_unrecognized_codes_witness :
    executeInstruction c2IcodeBadState [] = .error (c2IcodeBadState, [], .INS) ∧
    executeInstruction c2AluBadState [] = .error (c2AluBadState, [], .INS) ∧
    executeInstruction c2CmovBadState [] = .ok ({ c2CmovBadState with pc := 2 }, []) ∧
    executeInstruction c2JxxBadState [] = .ok ({ c2JxxBadState with pc := 9 }, []) :=
  ⟨c2_unrecognized_codes.1 c2IcodeBadState [] (by decide) (by decide),
   c2_unrecognized_codes.2.1 c2AluBadState [] (by decide) (by decide) (by decide),
   c2_unrecognized_codes.2.2.1 c2CmovBadState [] .rax .rax (by decide) (by decide) (by decide)
     (by decide) (by decide),
   c2_unrecognized_codes.2.2.2 c2JxxBadState [] (by decide) (by decide) (by decide) (by decide)⟩

theorem detectAddOverflow_iff (a b r : Int) :
    detectAddOverflow a b r = true ↔ ((a < 0 ↔ b < 0) ∧ ¬(r < 0 ↔ a < 0)) := by
  unfold detectAddOverflow
  simp only [Bool.and_eq_true, beq_iff_eq, decide_eq_decide, bne_iff_ne, ne_eq,
    decide_eq_true_eq]

/-- The state about to execute `addq %rcx, %rax` with `rax` holding the
largest signed 64-bit value and `rcx` holding 1. -/
def c3AddState : SimulationState :=
  { pc := 0, stat := .AOK,
    registers := updReg (updReg createRegisterFile .rax (2 ^ 63 - 1)) .rcx 1,
    conditionCodes := { ZF := false, SF := false, OF := false },
    memory := updMem (updMem zeroMem 0 96) 1 16 }

/-- C3: for signed-64-bit register operands, the ALU `add` stores the
64-bit-truncated sum, sets `OF` iff the operands share a sign and the
truncated result's sign differs from theirs, and `AND`/`XOR` always clear
`OF`; for all three, `ZF` holds iff the stored result is zero and `SF` iff
it is negative. In particular `0x7FFFFFFFFFFFFFFF + 1` yields the bit
pattern `0x8000000000000000` (value `-2^63`) with `OF` and `SF` set and
`ZF` clear. -/
theorem c3_alu_flags :
    (∀ (state : SimulationState) (d : List Nat) (src dst : Reg),
      state.pc + 1 < MEMORY_SIZE →
      (state.memory state.pc >>> 4) &&& 15 = 6 →
      state.memory state.pc &&& 15 = 0 →
      getRegisterName ((state.memory (state.pc + 1) >>> 4) &&& 15) = some src →
      getRegisterName (state.memory (state.pc + 1) &&& 15) = some dst →
      -((2 : Int) ^ 63) ≤ state.registers src → state.registers src < 2 ^ 63 →
      -((2 : Int) ^ 63) ≤ state.registers dst → state.registers dst < 2 ^ 63 →
      (resultState (executeInstruction state d)).registers dst
          = asIntN64 (state.registers src + state.registers dst) ∧
      ((resultState (executeInstruction state d)).conditionCodes.OF = true ↔
        ((state.registers src < 0 ↔ state.registers dst < 0) ∧
         ¬(asIntN64 (state.registers src + state.registers dst) < 0 ↔
           state.registers src < 0))) ∧
      ((resultState (executeInstruction state d)).conditionCodes.ZF = true ↔
        (resultState (executeInstruction state d)).registers dst = 0) ∧
      ((resultState (executeInstruction state d)).conditionCodes.SF = true ↔
        (resultState (executeInstruction state d)).registers dst < 0)) ∧
    (∀ (state : SimulationState) (d : List Nat) (src dst : Reg),
      state.pc + 1 < MEMORY_SIZE →
      (state.memory state.pc >>> 4) &&& 15 = 6 →
      state.memory state.pc &&& 15 = 2 →
      getRegisterName ((state.memory (state.pc + 1) >>> 4) &&& 15) = some src →
      getRegisterName (state.memory (state.pc + 1) &&& 15) = some dst →
      (resultState (executeInstruction state d)).conditionCodes.OF = false ∧
      ((resultState (executeInstruction state d)).conditionCodes.ZF = true ↔
        (resultState (executeInstruction state d)).registers dst = 0) ∧
      ((resultState (executeInstruction state d)).conditionCodes.SF = true ↔
        (resultState (executeInstruction state d)).registers dst < 0)) ∧
    (∀ (state : SimulationState) (d : List Nat) (src dst : Reg),
      state.pc + 1 < MEMORY_SIZE →
      (state.memory state.pc >>> 4) &&& 15 = 6 →
      state.memory state.pc &&& 15 = 3 →
      getRegisterName ((state.memory (state.pc + 1) >>> 4) &&& 15) = some src →
      getRegisterName (state.memory (state.pc + 1) &&& 15) = some dst →
      (resultState (executeInstruction state d)).conditionCodes.OF = false ∧
      ((resultState (executeInstruction state d)).conditionCodes.ZF = true ↔
        (resultState (executeInstruction state d)).registers dst = 0) ∧
      ((resultState (executeInstruction state d)).conditionCodes.SF = true ↔
        (resultState (executeInstruction state d)).registers dst < 0)) ∧
    ((resultState (executeInstruction c3AddState [])).registers Reg.rax = -((2 : Int) ^ 63) ∧
      asUintN64 ((resultState (executeInstruction c3AddState [])).registers Reg.rax)
        = 2 ^ 63 ∧
      (resultState (executeInstruction c3AddState [])).conditionCodes.OF = true ∧
      (resultState (executeInstruction c3AddState [])).conditionCodes.SF = true ∧
      (resultState (executeInstruction c3AddState [])).conditionCodes.ZF = false) := by
  refine ⟨?_, ?_, ?_, by decide⟩
  · intro state d src dst hpc hic hfn hsrc hdst hs1 hs2 hd1 hd2
    simp only [executeInstruction]
    rw [if_neg (by omega), if_neg (by intro hq; omega), if_neg (by omega), if_neg (by intro hq; omega),
        if_neg (by omega), if_neg (by intro hq; omega), if_neg (by omega), if_pos hic, hfn]
    simp only [execOPQ, readByte]
    rw [if_neg (by intro hq; omega)]
    simp only [hsrc, hdst]
    norm_num [resultState, opqFinish, toInt64, normalize64]
    rw [updReg_same, asIntN64_eq_self _ hs1 hs2, asIntN64_eq_self _ hd1 hd2]
    refine ⟨rfl, detectAddOverflow_iff _ _ _, ?_, ?_⟩ <;> simp
  · intro state d src dst hpc hic hfn hsrc hdst
    simp only [executeInstruction]
    rw [if_neg (by omega), if_neg (by intro hq; omega), if_neg (by omega), if_neg (by intro hq; omega),
        if_neg (by omega), if_neg (by intro hq; omega), if_neg (by omega), if_pos hic, hfn]
    simp only [execOPQ, readByte]
    rw [if_neg (by intro hq; omega)]
    simp only [hsrc, hdst]
    norm_num [resultState, opqFinish]
    rw [updReg_same]
    refine ⟨?_, ?_⟩ <;> simp
  · intro state d src dst hpc hic hfn hsrc hdst
    simp only [executeInstruction]
    rw [if_neg (by omega), if_neg (by intro hq; omega), if_neg (by omega), if_neg (by intro hq; omega),
        if_neg (by omega), if_neg (by intro hq; omega), if_neg (by omega), if_pos hic, hfn]
    simp only [execOPQ, readByte]
    rw [if_neg (by intro hq; omega)]
    simp only [hsrc, hdst]
    norm_num [resultState, opqFinish]
    rw [updReg_same]
    refine ⟨?_, ?_⟩ <;> simp

/-- A state about to execute `andq %rcx, %rax` with both operands 1. -/
def c3AndState : SimulationState :=
  { pc := 0, stat := .AOK,
    registers := updReg (updReg createRegisterFile .rax 1) .rcx 1,
    conditionCodes := { ZF := false, SF := false, OF := true },
    memory := updMem (updMem zeroMem 0 98) 1 16 }

theorem c3_alu_flags_witness :
    ((resultState (executeInstruction c3AddState [])).registers Reg.rax
        = asIntN64 (c3AddState.registers Reg.rcx + c3AddState.registers Reg.rax)) ∧
    ((resultState (executeInstruction c3AddState [])).conditionCodes.OF = true ↔
      ((c3AddState.registers Reg.rcx < 0 ↔ c3AddState.registers Reg.rax < 0) ∧
       ¬(asIntN64 (c3AddState.registers Reg.rcx + c3AddState.registers Reg.rax) < 0 ↔
         c3AddState.registers Reg.rcx < 0))) ∧
    (resultState (executeInstruction c3AndState [])).conditionCodes.OF = false :=
  ⟨(c3_alu_flags.1 c3AddState [] .rcx .rax (by decide) (by decide) (by decide) (by decide)
      (by decide) (by decide) (by decide) (by decide) (by decide)).1,
   (c3_alu_flags.1 c3AddState [] .rcx .rax (by decide) (by decide) (by decide) (by decide)
      (by decide) (by decide) (by decide) (by decide) (by decide)).2.1,
   (c3_alu_flags.2.1 c3AndState [] .rcx .rax (by decide) (by decide) (by decide) (by decide)
      (by decide)).1⟩
/-- Two consecutive interpreter steps on empty dirty sets, as the run
driver would execute them; `none` when either step traps. -/
def execTwice (state : SimulationState) : Option SimulationState :=
  match executeInstruction state [] with
  | .ok (s1, _) =>
    match executeInstruction s1 [] with
    | .ok (s2, _) => some s2
    | .error _ => none
  | .error _ => none

/-- C8: from any `AOK` state positioned at `pushq r; popq r` (opcodes
`0xA0`, `0xB0` with register byte naming `r`), with `rsp` in the window
where neither stack access traps and the stack slot disjoint from the two
instruction encodings, executing the two instructions restores `rsp` to
its pre-push value, leaves `r`'s value unchanged, advances `pc` by 4 and
keeps the status `AOK`. -/
theorem c8_push_pop_round_trip (state : SimulationState) (r : Reg)
    (hstat : state.stat = .AOK)
    (hpc : state.pc + 3 < MEMORY_SIZE)
    (hpush : state.memory state.pc = 160)
    (hpushreg : getRegisterName ((state.memory (state.pc + 1) >>> 4) &&& 15) = some r)
    (hpop : state.memory (state.pc + 2) = 176)
    (hpopreg : getRegisterName ((state.memory (state.pc + 3) >>> 4) &&& 15) = some r)
    (hrsp1 : 8 ≤ state.registers Reg.rsp)
    (hrsp2 : state.registers Reg.rsp ≤ (MEMORY_SIZE : Int))
    (hr1 : -((2 : Int) ^ 63) ≤ state.registers r) (hr2 : state.registers r < 2 ^ 63)
    (hdisj : ((state.pc : Int) + 3 < state.registers Reg.rsp - 8) ∨
             (state.registers Reg.rsp ≤ (state.pc : Int) + 2)) :
    (execTwice state).map (fun s => s.registers Reg.rsp) = some (state.registers Reg.rsp) ∧
    (execTwice state).map (fun s => s.registers r) = some (state.registers r) ∧
    (execTwice state).map (fun s => s.pc) = some (state.pc + 4) ∧
    (execTwice state).map (fun s => s.stat) = some StatusCode.AOK := by
  have hM : MEMORY_SIZE = 32768 := rfl
  set S := state.registers Reg.rsp with hSdef
  have hic1 : state.memory state.pc >>> 4 &&& 15 = 10 := by
    rw [hpush]
    decide
  have hrspNew : normalize64 (S - 8) = S - 8 := asIntN64_eq_self _ (by omega) (by omega)
  set v := updReg state.registers Reg.rsp (S - 8) r with hvdef
  have hvr : -((2 : Int) ^ 63) ≤ v ∧ v < 2 ^ 63 := by
    by_cases hrr : r = Reg.rsp
    · rw [hvdef, hrr, updReg_same]
      constructor <;> omega
    · rw [hvdef, updReg_other _ _ _ _ hrr]
      exact ⟨hr1, hr2⟩
  set sa := ((S : Int) - 8).toNat with hsadef
  have hsa : (sa : Int) = S - 8 := Int.toNat_of_nonneg (by omega)
  have hsaM : sa + 7 < MEMORY_SIZE := by omega
  obtain ⟨mem1, dd1, hw, hread, huntouched⟩ :=
    writeQuad_roundTrip state.memory sa v [] hsaM hvr.1 hvr.2
  have hexec1 : executeInstruction state [] =
      .ok ({ state with
             registers := updReg state.registers Reg.rsp (S - 8)
             memory := mem1
             pc := state.pc + 2 }, dd1) := by
    simp only [executeInstruction]
    rw [if_neg (by omega), if_neg (by intro hq; omega), if_neg (by omega), if_neg (by intro hq; omega),
        if_neg (by omega), if_neg (by intro hq; omega), if_neg (by omega), if_neg (by intro hq; omega),
        if_neg (by omega), if_neg (by intro hq; omega), if_neg (by omega), if_pos hic1]
    simp only [execPUSHQ, readByte]
    rw [if_neg (by intro hq; omega)]
    simp only [hpushreg, hrspNew, bigIntToNumber]
    rw [if_pos (by constructor <;> omega)]
    simp only []
    rw [← hsadef, hw]
  have hm2 : mem1 (state.pc + 2) = 176 := by
    rw [huntouched _ (by omega)]
    exact hpop
  have hm3 : mem1 (state.pc + 3) = state.memory (state.pc + 3) := huntouched _ (by omega)
  have hic2 : mem1 (state.pc + 2) >>> 4 &&& 15 = 11 := by
    rw [hm2]
    decide
  have hreg2 : getRegisterName ((mem1 (state.pc + 3) >>> 4) &&& 15) = some r := by
    rw [hm3]
    exact hpopreg
  have hrsp2new : updReg (updReg state.registers Reg.rsp (S - 8)) r v Reg.rsp = S - 8 := by
    by_cases hrr : r = Reg.rsp
    · rw [hrr, updReg_same, hvdef, hrr, updReg_same]
    · rw [updReg_other _ _ _ _ (fun hh => hrr hh.symm), updReg_same]
  have hrspBack : normalize64 (S - 8 + 8) = S := by
    rw [show (S : Int) - 8 + 8 = S by ring]
    exact asIntN64_eq_self _ (by omega) (by omega)
  have hexec2 : executeInstruction
      { state with
        registers := updReg state.registers Reg.rsp (S - 8)
        memory := mem1
        pc := state.pc + 2 } [] =
      .ok ({ state with
             registers := updReg (updReg (updReg state.registers Reg.rsp (S - 8)) r v) Reg.rsp S
             memory := mem1
             pc := state.pc + 2 + 2 }, []) := by
    simp only [executeInstruction]
    rw [if_neg (by omega), if_neg (by intro hq; omega), if_neg (by omega), if_neg (by intro hq; omega),
        if_neg (by omega), if_neg (by intro hq; omega), if_neg (by omega), if_neg (by intro hq; omega),
        if_neg (by omega), if_neg (by intro hq; omega), if_neg (by omega), if_neg (by intro hq; omega),
        if_pos hic2]
    simp only [execPOPQ, readByte]
    rw [if_neg (by omega)]
    simp only [hreg2, updReg_same, bigIntToNumber]
    rw [if_pos (by constructor <;> omega)]
    simp only []
    rw [← hsadef, hread]
    simp only [hrsp2new, hrspBack]
  have hfinal : execTwice state = some
      { state with
        registers := updReg (updReg (updReg state.registers Reg.rsp (S - 8)) r v) Reg.rsp S
        memory := mem1
        pc := state.pc + 2 + 2 } := by
    simp only [execTwice, hexec1, hexec2]
  rw [hfinal]
  simp only [Option.map]
  refine ⟨?_, ?_, ?_, ?_⟩
  · simp only [updReg_same]
  · by_cases hrr : r = Reg.rsp
    · rw [hrr, updReg_same]
    · rw [updReg_other _ _ _ _ hrr, updReg_same, hvdef, updReg_other _ _ _ _ hrr]
  · simp only []
  · rw [hstat]

/-- The push/pop witness machine: `pushq %rax; popq %rax` at address 0 with
`rax` holding 123456789 and `rsp` at the top of memory. -/
def c8WitnessState : SimulationState :=
  { pc := 0, stat := .AOK,
    registers := updReg createRegisterFile .rax 123456789,
    conditionCodes := { ZF := false, SF := false, OF := false },
    memory := updMem (updMem zeroMem 0 160) 2 176 }

theorem c8_push_pop_round_trip_witness :
    (execTwice c8WitnessState).map (fun s => s.registers Reg.rsp) = some 32768 ∧
    (execTwice c8WitnessState).map (fun s => s.registers Reg.rax) = some 123456789 ∧
    (execTwice c8WitnessState).map (fun s => s.pc) = some 4 :=
  ⟨(c8_push_pop_round_trip c8WitnessState .rax (by decide) (by decide) (by decide) (by decide)
      (by decide) (by decide) (by decide) (by decide) (by decide) (by decide)
      (by decide)).1,
   (c8_push_pop_round_trip c8WitnessState .rax (by decide) (by decide) (by decide) (by decide)
      (by decide) (by decide) (by decide) (by decide) (by decide) (by decide)
      (by decide)).2.1,
   (c8_push_pop_round_trip c8WitnessState .rax (by decide) (by decide) (by decide) (by decide)
      (by decide) (by decide) (by decide) (by decide) (by decide) (by decide)
      (by decide)).2.2.1⟩

/-- C7 (counterexample): after adding a breakpoint at address 5 and calling
`reset`, the breakpoint map is not empty — `reset` never touches
`this.breakpoints`, contradicting the claim that reset empties it. -/
theorem c7_reset_clears_breakpoints_counterexample :
    ¬ ((reset (addBreakpoint createCPU 5 none)).breakpoints = []) := by
  decide

/-- C7 (amended): `reset` empties the Snapshot History (both the rendered
history and the execution snapshots), discards the trace and cursor, and
restores the fresh zeroed initial Architectural State — but the set of
Breakpoints persists unchanged; only an explicit removal clears it. -/
theorem c7_reset_clears_history_not_breakpoints (s : Session) :
    (reset s).history = [] ∧ (reset s).executionHistory = [] ∧ (reset s).trace = [] ∧
    (reset s).currentIndex = -1 ∧ (reset s).state = createInitialState ∧
    (reset s).breakpoints = s.breakpoints :=
  ⟨rfl, rfl, rfl, rfl, rfl, rfl⟩

theorem checkBreakpoint_currentIndex (s : Session) (address : Nat) :
    (checkBreakpoint s address).2.currentIndex = s.currentIndex := by
  unfold checkBreakpoint
  cases s.breakpoints.find? (fun p => decide (p.1 = address)) with
  | none => rfl
  | some p =>
    obtain ⟨k, bp⟩ := p
    simp only []
    cases hE : !bp.enabled with
    | true => rfl
    | false =>
      cases hc : bp.condition with
      | none => rfl
      | some cond =>
        simp only []
        by_cases hB : (!evaluateBreakpointCondition s.state cond) = true
        · rw [if_pos hB]
          rfl
        · rw [if_neg hB]
          rfl

theorem stepApplyBreakpoint_currentIndex (t : Session) :
    (stepApplyBreakpoint t).2.currentIndex = t.currentIndex := by
  have hck := checkBreakpoint_currentIndex t t.state.pc
  unfold stepApplyBreakpoint
  rcases hcb : checkBreakpoint t t.state.pc with ⟨o, s5⟩
  rw [hcb] at hck
  cases o with
  | none => exact hck
  | some hit => exact hck

/-- C6 (amended): `step()` is a no-op — Architectural State and cursor
unchanged, `running` cleared, `false` returned — exactly when no next
trace entry exists (cursor at the last entry, or no trace loaded). A
breakpoint pause does not block stepping: whenever a next entry exists,
`step()` advances the cursor by one regardless of the paused state. -/
theorem c6_step_noop_iff_no_next_entry (s : Session) :
    (hasNextStep s = false → step s = (false, { s with running := false })) ∧
    (hasNextStep s = true → (step s).2.currentIndex = s.currentIndex + 1) := by
  constructor
  · intro h
    simp only [step, h]
    rfl
  · intro h
    simp only [step, h]
    rw [if_neg (by simp)]
    rw [stepApplyBreakpoint_currentIndex]
    rfl

/-- The three-instruction demo program `nop; nop; halt`. -/
def c6Lines : List (List Char) := [("0x0: 101000").data]

/-- The session after loading the demo program, adding a breakpoint at
address 1 and stepping once: the breakpoint has fired and paused the
session with two trace entries still ahead of the cursor. -/
def c6Paused : Session := (step (addBreakpoint (loadProgram createCPU c6Lines).2 1 none)).2

/-- C6 (counterexample): in the breakpoint-paused session the cursor sits
at entry 1 of a 4-entry trace and a hit is recorded — yet `step()` is not
a no-op: it advances the cursor to entry 2 and moves the Architectural
State to `pc = 2`. -/
theorem c6_step_noop_counterexample :
    c6Paused.lastBreakpointHit.isSome = true ∧
    c6Paused.currentIndex = 1 ∧
    c6Paused.trace.length = 4 ∧
    (step c6Paused).2.currentIndex = 2 ∧
    (step c6Paused).2.state.pc = 2 := by
  decide

theorem c6_step_noop_iff_no_next_entry_witness :
    (hasNextStep createCPU = false ∧ step createCPU = (false, createCPU)) ∧
    (hasNextStep c6Paused = true ∧
      (step c6Paused).2.currentIndex = c6Paused.currentIndex + 1) :=
  ⟨⟨by decide, (c6_step_noop_iff_no_next_entry createCPU).1 (by decide)⟩,
   ⟨by decide, (c6_step_noop_iff_no_next_entry c6Paused).2 (by decide)⟩⟩

theorem hex_not_ws (c : Char) (h : isHexDigitChar c = true) : isWsChar c = false := by
  by_contra hw
  rw [Bool.not_eq_false] at hw
  simp only [isWsChar, decide_eq_true_eq] at hw
  rcases hw with h1 | h1 | h1 | h1 | h1 | h1 <;> subst h1 <;> revert h <;> decide

theorem takeWhile_append_all (p : Char → Bool) :
    ∀ (xs ys : List Char), (∀ x ∈ xs, p x = true) →
      (xs ++ ys).takeWhile p = xs ++ ys.takeWhile p
  | [], ys, _ => rfl
  | x :: xs, ys, h => by
    have hx : p x = true := h x (List.mem_cons_self _ _)
    simp only [List.cons_append, List.takeWhile_cons, hx, if_true]
    rw [takeWhile_append_all p xs ys (fun a ha => h a (List.mem_cons_of_mem _ ha))]

theorem dropWhile_append_all (p : Char → Bool) :
    ∀ (xs ys : List Char), (∀ x ∈ xs, p x = true) →
      (xs ++ ys).dropWhile p = ys.dropWhile p
  | [], ys, _ => rfl
  | x :: xs, ys, h => by
    have hx : p x = true := h x (List.mem_cons_self _ _)
    simp only [List.cons_append, List.dropWhile_cons, hx, if_true]
    exact dropWhile_append_all p xs ys (fun a ha => h a (List.mem_cons_of_mem _ ha))

theorem takeWhile_cons_false (p : Char → Bool) (x : Char) (xs : List Char) (h : p x = false) :
    (x :: xs).takeWhile p = [] := by
  simp [List.takeWhile_cons, h]

theorem dropWhile_cons_false (p : Char → Bool) (x : Char) (xs : List Char) (h : p x = false) :
    (x :: xs).dropWhile p = x :: xs := by
  simp [List.dropWhile_cons, h]

theorem filter_not_ws_of_hex :
    ∀ (bs : List Char), (∀ c ∈ bs, isHexDigitChar c = true) →
      bs.filter (fun c => !(isWsChar c)) = bs := by
  intro bs h
  apply List.filter_eq_self.mpr
  intro c hc
  rw [hex_not_ws c (h c hc)]
  rfl


theorem matchRecord_bytes {l aH bH : List Char} (h : matchRecord l = some (aH, bH)) :
    bH ≠ [] ∧ ∀ c ∈ bH, isHexDigitChar c = true := by
  unfold matchRecord at h
  split at h
  · rename_i rest
    simp only [] at h
    by_cases hA : (rest.takeWhile isHexDigitChar).isEmpty = true
    · rw [if_pos hA] at h
      exact Option.noConfusion h
    · rw [if_neg hA] at h
      split at h
      · rename_i rest3 _
        by_cases hB : ((rest3.dropWhile isWsChar).takeWhile isHexDigitChar).isEmpty = true
        · rw [if_pos hB] at h
          exact Option.noConfusion h
        · rw [if_neg hB] at h
          injection h with h1
          have hb : bH = (rest3.dropWhile isWsChar).takeWhile isHexDigitChar :=
            (congrArg Prod.snd h1).symm
          subst hb
          refine ⟨?_, fun c hc => List.mem_takeWhile_imp hc⟩
          intro hemp
          rw [hemp] at hB
          exact hB rfl
      · exact Option.noConfusion h
  · exact Option.noConfusion h

/-- `matchRecord` never matches the empty line. -/
theorem matchRecord_nil : matchRecord [] = none := rfl

/-- A record line some of whose byte targets lie at or beyond the memory
bound (the last target is `address + pairs - 1`). -/
def lineOutOfRange (l : List Char) : Prop :=
  ∃ addrHex bytesHex, matchRecord (stripLine l) = some (addrHex, bytesHex) ∧
    MEMORY_SIZE ≤ hexVal addrHex + (bytesHex.length + 1) / 2 - 1

theorem loadBytes_err :
    ∀ (chars : List Char), chars ≠ [] → ∀ (mem : Mem) (dirty : List Nat) (t : Nat),
      MEMORY_SIZE ≤ t + (chars.length + 1) / 2 - 1 →
      loadBytes mem dirty chars t = .error .ADR
  | [], h => absurd rfl h
  | [c1], _ => by
    intro mem dirty t hb
    simp only [loadBytes]
    rw [if_pos (by simp only [List.length_cons, List.length_nil] at hb; omega)]
  | c1 :: c2 :: rest, _ => by
    intro mem dirty t hb
    simp only [loadBytes]
    by_cases ht : MEMORY_SIZE ≤ t
    · rw [if_pos ht]
    · rw [if_neg ht]
      rcases rest with _ | ⟨c3, rest2⟩
      · exfalso
        simp only [List.length_cons, List.length_nil] at hb
        omega
      · apply loadBytes_err (c3 :: rest2) (by simp)
        simp only [List.length_cons] at hb ⊢
        omega

theorem loadBytes_error_code :
    ∀ (chars : List Char) (mem : Mem) (dirty : List Nat) (t : Nat) (c : StatusCode),
      loadBytes mem dirty chars t = .error c → c = .ADR
  | [], mem, dirty, t, c => by
    intro h
    exact Except.noConfusion h
  | [c1], mem, dirty, t, c => by
    intro h
    simp only [loadBytes] at h
    split at h
    · injection h with h1
      exact h1.symm
    · exact Except.noConfusion h
  | c1 :: c2 :: rest, mem, dirty, t, c => by
    intro h
    simp only [loadBytes] at h
    split at h
    · injection h with h1
      exact h1.symm
    · exact loadBytes_error_code rest _ _ _ c h

/-- `processLine` with its let bindings expanded, for case analysis. -/
theorem processLine_eq (acc : ParseAcc) (rawLine : List Char) :
    processLine acc rawLine =
      if (stripLine rawLine).isEmpty = true then .ok acc
      else
        match matchRecord (stripLine rawLine) with
        | none => .ok acc
        | some (addrHex, bytesHex) =>
          if MEMORY_SIZE ≤ hexVal addrHex then .error .ADR
          else
            match loadBytes acc.memory acc.dirtyWords
                (bytesHex.filter (fun c => !(isWsChar c))) (hexVal addrHex) with
            | .error c => .error c
            | .ok (memory', dirty') =>
              .ok { memory := memory', dirtyWords := dirty',
                    entryPoint := some (match acc.entryPoint with
                                        | none => hexVal addrHex
                                        | some e => min e (hexVal addrHex)) } := rfl

theorem processLine_err {l : List Char} (hbad : lineOutOfRange l) (acc : ParseAcc) :
    processLine acc l = .error .ADR := by
  obtain ⟨aH, bH, hmatch, hbound⟩ := hbad
  obtain ⟨hbne, hbhex⟩ := matchRecord_bytes hmatch
  have hne : (stripLine l).isEmpty = false := by
    cases hsl : stripLine l with
    | nil => rw [hsl, matchRecord_nil] at hmatch; exact Option.noConfusion hmatch
    | cons a as => rfl
  rw [processLine_eq, hne]
  rw [if_neg Bool.false_ne_true]
  simp only [hmatch]
  by_cases haddr : MEMORY_SIZE ≤ hexVal aH
  · rw [if_pos haddr]
  · rw [if_neg haddr]
    rw [filter_not_ws_of_hex bH hbhex]
    rw [loadBytes_err bH hbne acc.memory acc.dirtyWords (hexVal aH) hbound]

theorem processLine_error_code {acc : ParseAcc} {l : List Char} {c : StatusCode}
    (h : processLine acc l = .error c) : c = .ADR := by
  rw [processLine_eq] at h
  split at h
  · exact Except.noConfusion h
  · split at h
    · exact Except.noConfusion h
    · split at h
      · injection h with h1
        exact h1.symm
      · split at h
        · rename_i hload
          injection h with h1
          subst h1
          exact loadBytes_error_code _ _ _ _ _ hload
        · exact Except.noConfusion h

theorem parseLines_err :
    ∀ (ls : List (List Char)) (acc : ParseAcc),
      (∃ l ∈ ls, lineOutOfRange l) → parseLines acc ls = .error .ADR
  | [], _ => by
    rintro ⟨l, hl, _⟩
    exact absurd hl (List.not_mem_nil l)
  | l :: ls, acc => by
    rintro ⟨l', hl', hbad⟩
    simp only [parseLines]
    rcases List.mem_cons.mp hl' with rfl | hmem
    · rw [processLine_err hbad acc]
    · cases hp : processLine acc l with
      | error c =>
        rw [processLine_error_code hp]
      | ok acc1 => exact parseLines_err ls acc1 ⟨l', hmem, hbad⟩

/-- C5: if some record of the object-code text targets a byte at or beyond
the memory bound, `loadProgram` reports failure and produces no trace: the
session keeps its freshly reset shape — empty trace, cursor at -1, fresh
initial Architectural State, empty snapshot history — with only the error
log entry added. -/
theorem c5_out_of_range_load_fails (s : Session) (lines : List (List Char))
    (h : ∃ l ∈ lines, lineOutOfRange l) :
    (loadProgram s lines).1 = false ∧
    (loadProgram s lines).2.trace = [] ∧
    (loadProgram s lines).2.currentIndex = -1 ∧
    (loadProgram s lines).2.state = createInitialState ∧
    (loadProgram s lines).2.history = [] ∧
    (loadProgram s lines).2.executionHistory = [] := by
  have hsim : simulateYoProgram lines = .error .ADR := by
    unfold simulateYoProgram parseYoProgram
    rw [parseLines_err lines _ h]
  unfold loadProgram
  rw [hsim]
  exact ⟨rfl, rfl, rfl, rfl, rfl, rfl⟩

/-- A single record targeting address `0x8000`, one past the last valid
byte. -/
def c5Lines : List (List Char) := [("0x8000: 00").data]

theorem c5_out_of_range_load_fails_witness :
    (loadProgram createCPU c5Lines).1 = false ∧
    (loadProgram createCPU c5Lines).2.trace = [] ∧
    (loadProgram createCPU c5Lines).2.currentIndex = -1 :=
  have hbad : ∃ l ∈ c5Lines, lineOutOfRange l :=
    ⟨("0x8000: 00").data, by decide,
     ['8', '0', '0', '0'], ['0', '0'], by decide, by decide⟩
  ⟨(c5_out_of_range_load_fails createCPU c5Lines hbad).1,
   (c5_out_of_range_load_fails createCPU c5Lines hbad).2.1,
   (c5_out_of_range_load_fails createCPU c5Lines hbad).2.2.1⟩

/-- The initial `SimulationState` the run driver builds after a successful
parse: `pc` at the entry point, registers from `createRegisterFile`, and —
unlike the session's `createInitialState` — all three flags false. -/
def driverInitState (prog : ParsedProgram) : SimulationState :=
  { pc := prog.entryPoint, stat := .AOK, registers := createRegisterFile,
    conditionCodes := { ZF := false, SF := false, OF := false }, memory := prog.memory }

theorem runSim_cons :
    ∀ (fuel : Nat) (state : SimulationState) (e : RemoteCycle) (tr : List RemoteCycle),
      ∃ rest, (runSim fuel state (e :: tr)).2 = e :: rest := by
  intro fuel
  induction fuel with
  | zero => intro state e tr; exact ⟨tr, rfl⟩
  | succ n ih =>
    intro state e tr
    simp only [runSim]
    by_cases h : state.stat = .AOK
    · rw [if_pos h]
      exact ih _ _ _
    · rw [if_neg h]
      exact ⟨tr, rfl⟩

theorem driverTail_head (st : SimulationState) (e : RemoteCycle) :
    ∃ tr, (let result := runSim MAX_SIMULATION_STEPS st [e]
           if result.1.stat = .AOK then
             Except.ok (ε := StatusCode)
               (result.2 ++ [serializeState { result.1 with stat := .HLT } []])
           else .ok result.2) = .ok (e :: tr) := by
  obtain ⟨rest, hrest⟩ := runSim_cons MAX_SIMULATION_STEPS st e []
  simp only []
  by_cases hf : (runSim MAX_SIMULATION_STEPS st [e]).1.stat = .AOK
  · rw [if_pos hf, hrest]
    exact ⟨rest ++ [serializeState
      { (runSim MAX_SIMULATION_STEPS st [e]).1 with stat := .HLT } []], rfl⟩
  · rw [if_neg hf, hrest]
    exact ⟨rest, rfl⟩

theorem simulateYoProgram_head {lines : List (List Char)} {prog : ParsedProgram}
    (h : parseYoProgram lines = .ok prog) :
    ∃ tr, simulateYoProgram lines =
      .ok (serializeState (driverInitState prog) prog.dirtyWords :: tr) := by
  obtain ⟨tr, htr⟩ :=
    driverTail_head (driverInitState prog) (serializeState (driverInitState prog) prog.dirtyWords)
  refine ⟨tr, ?_⟩
  unfold simulateYoProgram
  rw [h]
  exact htr

/-- C1 (amended): for every successfully parsed program, trace entry 0 of
the run driver has all fifteen registers zero except `rsp = 32768`, `PC` at
the entry point and status `AOK`, but all three serialized condition-code
flags are 0 — `ZF` included, contrary to the claimed "ZF true". -/
theorem c1_initial_trace_entry (lines : List (List Char)) (prog : ParsedProgram)
    (h : parseYoProgram lines = .ok prog) :
    ∃ e tr, simulateYoProgram lines = .ok (e :: tr) ∧
      (∀ r : Reg, e.REG r = if r = Reg.rsp then (MEMORY_SIZE : Int) else 0) ∧
      e.CC.ZF = 0 ∧ e.CC.SF = 0 ∧ e.CC.OF = 0 ∧
      e.PC = prog.entryPoint ∧ e.STAT = .AOK := by
  obtain ⟨tr, htr⟩ := simulateYoProgram_head h
  refine ⟨_, tr, htr, ?_, rfl, rfl, rfl, rfl, rfl⟩
  intro r
  cases r <;> rfl

/-- The one-instruction halt program used against C1. -/
def c1Lines : List (List Char) := [("0x0: 00").data]

/-- The serialized `ZF` flag of trace entry 0 of the halt program. -/
def c1HeadZF : Option Nat :=
  match simulateYoProgram c1Lines with
  | .error _ => none
  | .ok tr => tr.head?.map (fun e => e.CC.ZF)

/-- Trace entry 0 serializes `ZF` as 0, not 1: the run driver starts all
three flags false, unlike the session's `createInitialState`. -/
theorem c1_initial_zf_counterexample : c1HeadZF = some 0 ∧ c1HeadZF ≠ some 1 := by
  decide

/-- `parseYoProgram`'s output on the halt program. -/
def c1Prog : ParsedProgram :=
  match parseYoProgram c1Lines with
  | .ok p => p
  | .error _ => { memory := zeroMem, entryPoint := 0, dirtyWords := [] }

theorem c1_initial_trace_entry_witness :
    ∃ e tr, simulateYoProgram c1Lines = .ok (e :: tr) ∧
      (∀ r : Reg, e.REG r = if r = Reg.rsp then (MEMORY_SIZE : Int) else 0) ∧
      e.CC.ZF = 0 ∧ e.CC.SF = 0 ∧ e.CC.OF = 0 ∧
      e.PC = c1Prog.entryPoint ∧ e.STAT = .AOK :=
  c1_initial_trace_entry c1Lines c1Prog rfl

/-- The address of the record a line carries, if its preprocessed form
matches the record pattern. -/
def recordAddress (l : List Char) : Option Nat :=
  (matchRecord (stripLine l)).map (fun p => hexVal p.1)

/-- The record addresses of the object-code text, in line order. -/
def recordAddresses (lines : List (List Char)) : List Nat :=
  lines.filterMap recordAddress

/-- The entry-point fold of the line loop: `null` before any record, then
the running minimum of the record addresses. -/
def foldEntry : Option Nat → List Nat → Option Nat
  | e, [] => e
  | none, a :: as => foldEntry (some a) as
  | some e, a :: as => foldEntry (some (min e a)) as

theorem foldEntry_some :
    ∀ (as : List Nat) (e : Nat), foldEntry (some e) as = some (as.foldl min e)
  | [], _ => rfl
  | a :: as, e => foldEntry_some as (min e a)

theorem processLine_entry {acc acc' : ParseAcc} {l : List Char}
    (h : processLine acc l = .ok acc') :
    acc'.entryPoint =
      match recordAddress l with
      | none => acc.entryPoint
      | some a => some (match acc.entryPoint with | none => a | some e => min e a) := by
  rw [processLine_eq] at h
  split at h
  · rename_i hemp
    injection h with h1
    subst h1
    have hnil : stripLine l = [] := by
      cases hsl : stripLine l with
      | nil => rfl
      | cons a as => rw [hsl] at hemp; exact absurd hemp (by simp)
    unfold recordAddress
    rw [hnil, matchRecord_nil]
    rfl
  · split at h
    · rename_i hm
      injection h with h1
      subst h1
      unfold recordAddress
      rw [hm]
      rfl
    · rename_i aH bH hm
      split at h
      · exact Except.noConfusion h
      · split at h
        · exact Except.noConfusion h
        · injection h with h1
          subst h1
          unfold recordAddress
          rw [hm]
          rfl

theorem parseLines_entry :
    ∀ (ls : List (List Char)) (acc acc' : ParseAcc),
      parseLines acc ls = .ok acc' →
      acc'.entryPoint = foldEntry acc.entryPoint (recordAddresses ls)
  | [], acc, acc' => by
    intro h
    injection h with h1
    subst h1
    cases acc.entryPoint <;> rfl
  | l :: ls, acc, acc' => by
    intro h
    simp only [parseLines] at h
    cases hp : processLine acc l with
    | error c => rw [hp] at h; exact Except.noConfusion h
    | ok acc1 =>
      rw [hp] at h
      have hent := processLine_entry hp
      have ih := parseLines_entry ls acc1 acc' h
      unfold recordAddresses at ih ⊢
      cases hra : recordAddress l with
      | none =>
        rw [List.filterMap_cons_none hra]
        rw [hra] at hent
        simp only [] at hent
        rw [ih, hent]
      | some a =>
        rw [List.filterMap_cons_some hra]
        rw [hra] at hent
        simp only [] at hent
        rw [ih, hent]
        cases acc.entryPoint <;> rfl

/-- C4: for every object-code text with at least one parseable record that
the loader accepts, the chosen entry point — both `ParsedProgram.entryPoint`
and the initial program counter of trace entry 0 — is the minimum address
across all records. -/
theorem c4_entry_point_is_min_address (lines : List (List Char)) (prog : ParsedProgram)
    (a : Nat) (as : List Nat)
    (h : parseYoProgram lines = .ok prog)
    (hrec : recordAddresses lines = a :: as) :
    prog.entryPoint = as.foldl min a ∧
    ∃ e tr, simulateYoProgram lines = .ok (e :: tr) ∧ e.PC = as.foldl min a := by
  have hmain : prog.entryPoint = as.foldl min a := by
    unfold parseYoProgram at h
    cases hp : parseLines { memory := zeroMem, dirtyWords := [], entryPoint := none } lines with
    | error c => rw [hp] at h; exact Except.noConfusion h
    | ok acc =>
      rw [hp] at h
      injection h with h1
      subst h1
      have hent := parseLines_entry lines _ acc hp
      rw [hrec] at hent
      show acc.entryPoint.getD 0 = as.foldl min a
      rw [hent]
      show (foldEntry (some a) as).getD 0 = as.foldl min a
      rw [foldEntry_some]
      rfl
  obtain ⟨tr, htr⟩ := simulateYoProgram_head h
  exact ⟨hmain, serializeState (driverInitState prog) prog.dirtyWords, tr, htr, hmain⟩

/-- A two-record program whose records sit at addresses 4 and 2. -/
def c4Lines : List (List Char) := [("0x4: 00").data, ("0x2: 00").data]

/-- `parseYoProgram`'s output on the two-record program. -/
def c4Prog : ParsedProgram :=
  match parseYoProgram c4Lines with
  | .ok p => p
  | .error _ => { memory := zeroMem, entryPoint := 0, dirtyWords := [] }

theorem c4_entry_point_is_min_address_witness :
    c4Prog.entryPoint = List.foldl min 4 [2] ∧
    ∃ e tr, simulateYoProgram c4Lines = .ok (e :: tr) ∧ e.PC = List.foldl min 4 [2] :=
  c4_entry_point_is_min_address c4Lines c4Prog 4 [2] rfl (by decide)

/-- `matchRecord` after `0x`, in terms of the maximal hex run and its
colon-terminated remainder. -/
theorem matchRecord_shape_eq (addrHex tail : List Char)
    (ha2 : ∀ c ∈ addrHex, isHexDigitChar c = true) (ha1 : addrHex ≠ []) :
    matchRecord ('0' :: 'x' :: (addrHex ++ ':' :: tail)) =
      (if ((tail.dropWhile isWsChar).takeWhile isHexDigitChar).isEmpty = true then none
       else some (addrHex, (tail.dropWhile isWsChar).takeWhile isHexDigitChar)) := by
  have htake : (addrHex ++ ':' :: tail).takeWhile isHexDigitChar = addrHex := by
    rw [takeWhile_append_all _ _ _ ha2, takeWhile_cons_false _ _ _ (by decide), List.append_nil]
  have hdrop : (addrHex ++ ':' :: tail).dropWhile isHexDigitChar = ':' :: tail := by
    rw [dropWhile_append_all _ _ _ ha2, dropWhile_cons_false _ _ _ (by decide)]
  have hne : ¬(addrHex.isEmpty = true) := by
    cases addrHex with
    | nil => exact absurd rfl ha1
    | cons a as => simp
  show (if (((addrHex ++ ':' :: tail).takeWhile isHexDigitChar).isEmpty = true) then none
        else match (addrHex ++ ':' :: tail).dropWhile isHexDigitChar with
          | ':' :: rest3 =>
            if ((rest3.dropWhile isWsChar).takeWhile isHexDigitChar).isEmpty = true then none
            else some ((addrHex ++ ':' :: tail).takeWhile isHexDigitChar,
                       (rest3.dropWhile isWsChar).takeWhile isHexDigitChar)
          | _ => none) = _
  rw [htake, hdrop, if_neg hne]
  rfl

/-- A line of the shape `0x<hex>:<ws><hex run><barrier>` matches with group
1 the address run and group 2 the first hex run after the colon. -/
theorem matchRecord_of_shape (addrHex ws run rest : List Char)
    (ha1 : addrHex ≠ []) (ha2 : ∀ c ∈ addrHex, isHexDigitChar c = true)
    (hw : ∀ c ∈ ws, isWsChar c = true)
    (hr1 : run ≠ []) (hr2 : ∀ c ∈ run, isHexDigitChar c = true)
    (hrest : ∀ c ∈ rest.head?, isHexDigitChar c = false) :
    matchRecord ('0' :: 'x' :: (addrHex ++ ':' :: (ws ++ run ++ rest))) = some (addrHex, run) := by
  have hdropws : ((ws ++ run ++ rest).dropWhile isWsChar) = run ++ rest := by
    rw [List.append_assoc, dropWhile_append_all _ _ _ hw]
    cases run with
    | nil => exact absurd rfl hr1
    | cons r rs =>
      rw [List.cons_append, dropWhile_cons_false _ _ _ (hex_not_ws r (hr2 r (List.mem_cons_self _ _)))]
  have htakerun : (run ++ rest).takeWhile isHexDigitChar = run := by
    rw [takeWhile_append_all _ _ _ hr2]
    cases rest with
    | nil => simp
    | cons c cs =>
      rw [takeWhile_cons_false _ _ _ (hrest c rfl), List.append_nil]
  rw [matchRecord_shape_eq addrHex _ ha2 ha1, hdropws, htakerun]
  rw [if_neg (by cases run with
    | nil => exact absurd rfl hr1
    | cons r rs => simp)]

theorem loadBytes_ok :
    ∀ (chars : List Char) (mem : Mem) (dirty : List Nat) (t : Nat),
      t + (chars.length + 1) / 2 ≤ MEMORY_SIZE →
      ∃ mem' dirty', loadBytes mem dirty chars t = .ok (mem', dirty') ∧
        (∀ j, j < (chars.length + 1) / 2 →
          mem' (t + j) = hexVal ((chars.drop (2 * j)).take 2)) ∧
        (∀ a, (a < t ∨ t + (chars.length + 1) / 2 ≤ a) → mem' a = mem a)
  | [], mem, dirty, t => by
    intro hb
    exact ⟨mem, dirty, rfl, fun j hj => absurd hj (Nat.not_lt_zero j), fun a _ => rfl⟩
  | [c1], mem, dirty, t => by
    intro hb
    have ht : ¬ MEMORY_SIZE ≤ t := by
      simp only [List.length_cons, List.length_nil] at hb
      omega
    refine ⟨updMem mem t (hexVal [c1]), markMemoryRangeDirty dirty t 1, ?_, ?_, ?_⟩
    · simp only [loadBytes]
      rw [if_neg ht]
    · intro j hj
      have hj0 : j = 0 := by
        simp only [List.length_cons, List.length_nil] at hj
        omega
      subst hj0
      simp [updMem]
    · intro a ha
      simp only [List.length_cons, List.length_nil] at ha
      simp only [updMem]
      rw [if_neg (by intro hq; omega)]
  | c1 :: c2 :: rest, mem, dirty, t => by
    intro hb
    simp only [List.length_cons] at hb
    have ht : ¬ MEMORY_SIZE ≤ t := by omega
    obtain ⟨mem', dirty', hld, hin, hout⟩ :=
      loadBytes_ok rest (updMem mem t (hexVal [c1, c2])) (markMemoryRangeDirty dirty t 1)
        (t + 1) (by omega)
    refine ⟨mem', dirty', ?_, ?_, ?_⟩
    · simp only [loadBytes]
      rw [if_neg ht]
      exact hld
    · intro j hj
      simp only [List.length_cons] at hj
      cases j with
      | zero =>
        rw [hout (t + 0) (Or.inl (by omega))]
        simp [updMem]
      | succ j' =>
        have e1 : t + (j' + 1) = (t + 1) + j' := by omega
        have e2 : 2 * (j' + 1) = 2 * j' + 1 + 1 := by omega
        rw [e1, e2, List.drop_succ_cons, List.drop_succ_cons]
        exact hin j' (by omega)
    · intro a ha
      simp only [List.length_cons] at ha
      rw [hout a (by omega)]
      simp only [updMem]
      rw [if_neg (by omega)]

/-- C9 (amended): for a clean record line `0x<addr>:<ws><run><barrier>`
whose first hex run after the colon fits in memory, the loader writes that
run's byte pairs to consecutive addresses starting at the record address
(which becomes the entry point of this one-line program), and every other
byte of memory remains zero. Whitespace inside the byte pairs is NOT
tolerated: group 2 of the record pattern is only the first maximal hex run,
so anything after an interior blank is silently dropped. -/
theorem c9_first_hex_run_written (line addrHex ws run rest : List Char)
    (hline : line = '0' :: 'x' :: (addrHex ++ ':' :: (ws ++ run ++ rest)))
    (hstrip : stripLine line = line)
    (ha1 : addrHex ≠ []) (ha2 : ∀ c ∈ addrHex, isHexDigitChar c = true)
    (hw : ∀ c ∈ ws, isWsChar c = true)
    (hr1 : run ≠ []) (hr2 : ∀ c ∈ run, isHexDigitChar c = true)
    (hrest : ∀ c ∈ rest.head?, isHexDigitChar c = false)
    (hbound : hexVal addrHex + (run.length + 1) / 2 ≤ MEMORY_SIZE) :
    ∃ p, parseYoProgram [line] = .ok p ∧
      p.entryPoint = hexVal addrHex ∧
      (∀ j, j < (run.length + 1) / 2 →
        p.memory (hexVal addrHex + j) = hexVal ((run.drop (2 * j)).take 2)) ∧
      (∀ a, (a < hexVal addrHex ∨ hexVal addrHex + (run.length + 1) / 2 ≤ a) →
        p.memory a = 0) := by
  have hmatch : matchRecord (stripLine line) = some (addrHex, run) := by
    rw [hstrip, hline]
    exact matchRecord_of_shape addrHex ws run rest ha1 ha2 hw hr1 hr2 hrest
  have haddrlt : hexVal addrHex < MEMORY_SIZE := by
    have h1 : 1 ≤ (run.length + 1) / 2 := by
      cases run with
      | nil => exact absurd rfl hr1
      | cons r rs => simp only [List.length_cons]; omega
    omega
  obtain ⟨mem', dirty', hload, hin, hout⟩ := loadBytes_ok run zeroMem [] (hexVal addrHex) hbound
  have hne : (stripLine line).isEmpty = false := by
    rw [hstrip, hline]
    rfl
  have hproc : processLine { memory := zeroMem, dirtyWords := [], entryPoint := none } line =
      .ok { memory := mem', dirtyWords := dirty', entryPoint := some (hexVal addrHex) } := by
    rw [processLine_eq, hne, if_neg Bool.false_ne_true]
    simp only [hmatch]
    rw [if_neg (not_le.mpr haddrlt)]
    rw [filter_not_ws_of_hex run hr2, hload]
  refine ⟨{ memory := mem', entryPoint := hexVal addrHex, dirtyWords := dirty' }, ?_, rfl, ?_, ?_⟩
  · unfold parseYoProgram
    simp only [parseLines, hproc]
    rfl
  · intro j hj
    exact hin j hj
  · intro a ha
    show mem' a = 0
    rw [hout a ha]
    rfl

/-- The line whose byte pairs are separated by a blank. -/
def c9Lines : List (List Char) := [("0x0: 01 02").data]

/-- The loaded value of one memory byte of that program. -/
def c9MemAt (a : Nat) : Option Nat :=
  match parseYoProgram c9Lines with
  | .error _ => none
  | .ok p => some (p.memory a)

/-- On `0x0: 01 02` the loader writes only the first pair: byte 0 becomes
0x01 but byte 1 stays 0, because the record pattern's group 2 stops at the
interior blank and the second pair is silently dropped. -/
theorem c9_whitespace_pairs_counterexample : c9MemAt 0 = some 1 ∧ c9MemAt 1 = some 0 := by
  decide

/-- The clean one-run record line `0x2: 0102`. -/
def c9wLine : List Char := ("0x2: 0102").data

theorem c9_first_hex_run_written_witness :
    ∃ p, parseYoProgram [c9wLine] = .ok p ∧
      p.entryPoint = hexVal ['2'] ∧
      (∀ j, j < ((['0', '1', '0', '2'] : List Char).length + 1) / 2 →
        p.memory (hexVal ['2'] + j) =
          hexVal (((['0', '1', '0', '2'] : List Char).drop (2 * j)).take 2)) ∧
      (∀ a, (a < hexVal ['2'] ∨
          hexVal ['2'] + ((['0', '1', '0', '2'] : List Char).length + 1) / 2 ≤ a) →
        p.memory a = 0) :=
  c9_first_hex_run_written c9wLine ['2'] [' '] ['0', '1', '0', '2'] []
    (by decide) (by decide) (by decide) (by decide) (by decide) (by decide) (by decide)
    (fun c hc => absurd hc (by simp)) (by decide)
